import Mathlib

/-!
Geometric shapes library (`include/classes.h`): a shallow embedding.

The code is embedded twice. In the first embedding scalars are the elements of
a linearly ordered field `K` (exact arithmetic), so every definition can be
evaluated over `ℚ` and every theorem also holds over `ℝ`; it states what the
formulas of the code compute when no rounding takes place. The second
embedding, the definitions named `…_double`, is the instantiation at
`T = double` with each operation rounded as in IEEE 754 binary64; it states
what the compiled code returns.
A `Figure` keeps the two data members of the C++ class: the owned array
(`none` is the null pointer) and the separately stored `num_points`.
Reading or writing through a null pointer or past the end of an array has no
defined result in C++; the embedding reports `Fault.undefined` there, next to
the one exception the code throws, `Fault.invalid_argument`.
-/

namespace Lab4

variable {K : Type} [LinearOrderedField K]

/-! ## Tolerance comparisons (`classes.h` lines 9-24) -/

/-- The constant `EPSILON`, `1e-9`. -/
def EPSILON : K := 1 / 10 ^ 9

/-- The function `eq`: `std::abs(a - b) < EPSILON`. -/
def eq (a b : K) : Bool := decide (|a - b| < EPSILON)

/-- The function `less`: `(b - a) > EPSILON`. -/
def less (a b : K) : Bool := decide (b - a > EPSILON)

/-- The function `greater`: `(a - b) > EPSILON`. -/
def greater (a b : K) : Bool := decide (a - b > EPSILON)

/-! ## Points (`classes.h` lines 29-55) -/

/-- The class `Point<T>`: two coordinates, both `0` by default. -/
structure Point (K : Type) where
  x : K
  y : K
deriving DecidableEq

/-- The getter `get_x`. -/
@[simp] def Point.get_x (p : Point K) : K := p.x

/-- The getter `get_y`. -/
@[simp] def Point.get_y (p : Point K) : K := p.y

/-- The default constructor `Point()`: the point `(0, 0)`. -/
def Point.origin : Point K := ⟨0, 0⟩

/-! ## Outcomes -/

/-- How an operation can fail to return: by throwing `std::invalid_argument`
with its message, or by an access whose behaviour C++ leaves undefined (a read
or write through a null `points`, or past the end of an array). -/
inductive Fault where
  | invalid_argument (what : String)
  | undefined
deriving DecidableEq

/-- The expression `arr[i]` used as a value. -/
def read_at (arr : Option (List (Point K))) (i : Nat) : Except Fault (Point K) :=
  match arr with
  | none => .error .undefined
  | some ps =>
    match ps[i]? with
    | some p => .ok p
    | none => .error .undefined

/-- The call `std::make_unique<Point<T>[]>(n)`: `n` value-initialised points. -/
def make_unique (n : Nat) : Option (List (Point K)) :=
  some (List.replicate n Point.origin)

/-! ## Figures (`classes.h` lines 64-155) -/

/-- The data members of `Figure<T>`: `points` (a `unique_ptr` to an array,
`none` when null) and `num_points`. -/
structure Figure (K : Type) where
  points : Option (List (Point K))
  num_points : Nat
deriving DecidableEq

/-- The expression `points[i]` used as a value. -/
def Figure.at (f : Figure K) (i : Nat) : Except Fault (Point K) :=
  read_at f.points i

/-- The assignment `this->points[i] = p`. -/
def Figure.set (f : Figure K) (i : Nat) (p : Point K) : Except Fault (Figure K) :=
  match f.points with
  | none => .error .undefined
  | some ps =>
    if i < ps.length then .ok { f with points := some (ps.set i p) }
    else .error .undefined

/-- The constructor `Figure()`: null pointer, zero points. -/
def Figure.empty : Figure K := ⟨none, 0⟩

/-- A figure that owns exactly the sequence `ps` (array `ps`, `num_points` its length). -/
def Figure.ofList (ps : List (Point K)) : Figure K := ⟨some ps, ps.length⟩

/-- The accumulator `area` of `find_signed_area` after the loop body has run for
`i = 0, …, k - 1`. -/
def Figure.signed_area_loop (f : Figure K) : Nat → Except Fault K
  | 0 => .ok 0
  | i + 1 => do
      let area ← f.signed_area_loop i
      let pi ← f.at i
      let pj ← f.at ((i + 1) % f.num_points)
      .ok (area + pi.get_x * pj.get_y - pj.get_x * pi.get_y)

/-- The method `find_signed_area`. -/
def Figure.find_signed_area (f : Figure K) : Except Fault K :=
  if f.num_points < 3 then .ok 0
  else do
    let area ← f.signed_area_loop f.num_points
    .ok (area / 2)

/-- The accumulators `(total_x, total_y)` of the degenerate branch of
`find_center` after the loop body has run for `i = 0, …, k - 1`. -/
def Figure.total_loop (f : Figure K) : Nat → Except Fault (K × K)
  | 0 => .ok (0, 0)
  | i + 1 => do
      let t ← f.total_loop i
      let p ← f.at i
      .ok (t.1 + p.get_x, t.2 + p.get_y)

/-- The accumulators `(c_x, c_y)` of the last loop of `find_center` after the
loop body has run for `i = 0, …, k - 1`. -/
def Figure.center_loop (f : Figure K) : Nat → Except Fault (K × K)
  | 0 => .ok (0, 0)
  | i + 1 => do
      let c ← f.center_loop i
      let pi ← f.at i
      let pj ← f.at ((i + 1) % f.num_points)
      let cross_product := pi.get_x * pj.get_y - pj.get_x * pi.get_y
      .ok (c.1 + (pi.get_x + pj.get_x) * cross_product,
           c.2 + (pi.get_y + pj.get_y) * cross_product)

/-- The method `find_center`. -/
def Figure.find_center (f : Figure K) : Except Fault (Point K) :=
  if f.num_points = 0 then .ok ⟨0, 0⟩
  else if f.num_points = 1 then f.at 0
  else if f.num_points = 2 then do
    let p0 ← f.at 0
    let p1 ← f.at 1
    .ok ⟨(p0.get_x + p1.get_x) / 2, (p0.get_y + p1.get_y) / 2⟩
  else do
    let signedArea ← f.find_signed_area
    if eq signedArea 0 then
      let t ← f.total_loop f.num_points
      .ok ⟨t.1 / (f.num_points : K), t.2 / (f.num_points : K)⟩
    else
      let c ← f.center_loop f.num_points
      .ok ⟨c.1 / (6 * signedArea), c.2 / (6 * signedArea)⟩

/-- The conversion `operator double`: `std::abs(find_signed_area())`. -/
def Figure.operator_double (f : Figure K) : Except Fault K := do
  let s ← f.find_signed_area
  .ok |s|

/-! ## Validators (`classes.h` lines 158-223) -/

/-- The function `check_rhombus`; `true` means "not a rhombus". -/
def check_rhombus (a b c d : Point K) : Bool :=
  let mid1_x := (a.get_x + c.get_x) / 2
  let mid1_y := (a.get_y + c.get_y) / 2
  let mid2_x := (b.get_x + d.get_x) / 2
  let mid2_y := (b.get_y + d.get_y) / 2
  if !eq mid1_x mid2_x || !eq mid1_y mid2_y then true
  else
    let vec1_x := c.get_x - a.get_x
    let vec1_y := c.get_y - a.get_y
    let vec2_x := d.get_x - b.get_x
    let vec2_y := d.get_y - b.get_y
    let dot_product := vec1_x * vec2_x + vec1_y * vec2_y
    if !eq dot_product 0 then true
    else
      let len_vec1_sq := vec1_x * vec1_x + vec1_y * vec1_y
      let len_vec2_sq := vec2_x * vec2_x + vec2_y * vec2_y
      if eq len_vec1_sq 0 || eq len_vec2_sq 0 then true
      else false

/-- The function `distance_sq`. -/
def distance_sq (a b : Point K) : K :=
  let dx := a.get_x - b.get_x
  let dy := a.get_y - b.get_y
  dx * dx + dy * dy

/-- The accumulators `(center_x, center_y)` of `check_regular_ngon` after the
loop body has run for `i = 0, …, k - 1`. -/
def ngon_center_loop (points : List (Point K)) : Nat → Except Fault (K × K)
  | 0 => .ok (0, 0)
  | i + 1 => do
      let c ← ngon_center_loop points i
      let p ← read_at (some points) i
      .ok (c.1 + p.get_x, c.2 + p.get_y)

/-- The second loop of `check_regular_ngon` after its body has been reached for
`i = 1, …, k`: `false` once the loop has executed `return false`, `true` while
it is still running. -/
def ngon_radius_loop (points : List (Point K)) (center : Point K)
    (dist_sq_center : K) : Nat → Except Fault Bool
  | 0 => .ok true
  | k + 1 => do
      let running ← ngon_radius_loop points center dist_sq_center k
      if !running then .ok false
      else do
        let p ← read_at (some points) (k + 1)
        if !eq (distance_sq center p) dist_sq_center then .ok false
        else .ok true

/-- The third loop of `check_regular_ngon` after its body has been reached for
`i = 1, …, k`: `false` once the loop has executed `return false`, `true` while
it is still running. -/
def ngon_side_loop (points : List (Point K)) (n : Nat)
    (side_len_sq : K) : Nat → Except Fault Bool
  | 0 => .ok true
  | k + 1 => do
      let running ← ngon_side_loop points n side_len_sq k
      if !running then .ok false
      else do
        let j := (k + 1 + 1) % n
        let pi ← read_at (some points) (k + 1)
        let pj ← read_at (some points) j
        if !eq (distance_sq pi pj) side_len_sq then .ok false
        else .ok true

/-- The function `check_regular_ngon(points, n)`. -/
def check_regular_ngon (points : List (Point K)) (n : Nat) : Except Fault Bool :=
  if n < 3 then .ok false
  else do
    let c ← ngon_center_loop points n
    let center : Point K := ⟨c.1 / (n : K), c.2 / (n : K)⟩
    let p0 ← read_at (some points) 0
    let dist_sq_center := distance_sq center p0
    let running ← ngon_radius_loop points center dist_sq_center (n - 1)
    if !running then .ok false
    else do
      let p1 ← read_at (some points) 1
      let side_len_sq := distance_sq p0 p1
      let running ← ngon_side_loop points n side_len_sq (n - 1)
      if !running then .ok false
      else .ok true

/-! ## Shapes (`classes.h` lines 225-404) -/

/-- The four assignments that end `Rhombus(a, b, c, d)` and `Rhombus::read`,
after `num_points = 4` and `points = make_unique(num_points)`. -/
def Rhombus.store (this : Figure K) (a b c d : Point K) : Except Fault (Figure K) := do
  let this : Figure K := { this with num_points := 4 }
  let this : Figure K := { this with points := make_unique this.num_points }
  let this ← this.set 0 a
  let this ← this.set 1 b
  let this ← this.set 2 c
  this.set 3 d

/-- The constructor `Rhombus(a, b, c, d)`: the object built, or the fault. -/
def Rhombus.ctor (a b c d : Point K) : Except Fault (Figure K) :=
  let this : Figure K := Figure.empty
  if check_rhombus a b c d then
    .error (.invalid_argument "Error: Rhombus is not defined")
  else Rhombus.store this a b c d

/-- The method `Rhombus::read` on the four parsed points: the state of the
object when the call ends, and how it ends. -/
def Rhombus.read (this : Figure K) (a b c d : Point K) : Figure K × Except Fault Unit :=
  if check_rhombus a b c d then
    (this, .error (.invalid_argument "Error: Input points do not form a rhombus"))
  else
    match Rhombus.store this a b c d with
    | .ok this' => (this', .ok ())
    | .error e => (this, .error e)

/-- The loop `for (i = 0; i < k; ++i) this->points[i] = src[i]`. -/
def fill_loop (this : Figure K) (src : Option (List (Point K))) : Nat → Except Fault (Figure K)
  | 0 => .ok this
  | i + 1 => do
      let cur ← fill_loop this src i
      let p ← read_at src i
      cur.set i p

/-- The statements that end the Pentagon (`n = 5`) and Hexagon (`n = 6`)
constructors and `read`: `num_points = n`, `points = make_unique(num_points)`,
then the copying loop. -/
def ngon_store (this : Figure K) (n : Nat) (input_points : List (Point K)) :
    Except Fault (Figure K) :=
  let this : Figure K := { this with num_points := n }
  let this : Figure K := { this with points := make_unique this.num_points }
  fill_loop this (some input_points) n

/-- The body shared by `Pentagon(p1, …, p5)` and `Hexagon(p1, …, p6)`, which
differ in `n` and in the message. -/
def ngon_ctor (n : Nat) (what : String) (input_points : List (Point K)) :
    Except Fault (Figure K) := do
  let this : Figure K := Figure.empty
  let regular ← check_regular_ngon input_points n
  if !regular then .error (.invalid_argument what)
  else ngon_store this n input_points

/-- The constructor `Pentagon(p1, p2, p3, p4, p5)`. -/
def Pentagon.ctor (p1 p2 p3 p4 p5 : Point K) : Except Fault (Figure K) :=
  ngon_ctor 5 "Error: Points do not form a regular pentagon" [p1, p2, p3, p4, p5]

/-- The constructor `Hexagon(p1, p2, p3, p4, p5, p6)`. -/
def Hexagon.ctor (p1 p2 p3 p4 p5 p6 : Point K) : Except Fault (Figure K) :=
  ngon_ctor 6 "Error: Points do not form a regular hexagon" [p1, p2, p3, p4, p5, p6]

/-- The body shared by `Pentagon::read` and `Hexagon::read` on the parsed
array `input_points`: the state of the object when the call ends, and how it ends. -/
def ngon_read (n : Nat) (what : String) (this : Figure K) (input_points : List (Point K)) :
    Figure K × Except Fault Unit :=
  match check_regular_ngon input_points n with
  | .error e => (this, .error e)
  | .ok regular =>
    if !regular then (this, .error (.invalid_argument what))
    else
      match ngon_store this n input_points with
      | .ok this' => (this', .ok ())
      | .error e => (this, .error e)

/-- The method `Pentagon::read` on the five parsed points. -/
def Pentagon.read (this : Figure K) (input_points : List (Point K)) :
    Figure K × Except Fault Unit :=
  ngon_read 5 "Error: Input points do not form a regular pentagon" this input_points

/-- The method `Hexagon::read` on the six parsed points. -/
def Hexagon.read (this : Figure K) (input_points : List (Point K)) :
    Figure K × Except Fault Unit :=
  ngon_read 6 "Error: Input points do not form a regular hexagon" this input_points

/-- The copy constructors `Rhombus(const Rhombus&)`, `Pentagon(const Pentagon&)`
and `Hexagon(const Hexagon&)`, which have the same body. -/
def copy_ctor (other : Figure K) : Except Fault (Figure K) :=
  let this : Figure K := Figure.empty
  let this : Figure K := { this with num_points := other.num_points }
  let this : Figure K := { this with points := make_unique this.num_points }
  fill_loop this other.points this.num_points

/-- The move constructors `Rhombus(Rhombus&&)`, `Pentagon(Pentagon&&)` and
`Hexagon(Hexagon&&)`, which have the same body: the object built, and `other`
as the move leaves it (`std::move` on a `unique_ptr` nulls the source pointer;
nothing writes `other.num_points`). -/
def move_ctor (other : Figure K) : Figure K × Figure K :=
  let this : Figure K := Figure.empty
  let this : Figure K := { this with num_points := other.num_points }
  let this : Figure K := { this with points := other.points }
  let other : Figure K := { other with points := none }
  (this, other)

/-! ## The formulas of the specification -/

/-- The vertex `p_i` of a point sequence (the origin when `i` is outside it). -/
def vertex (ps : List (Point K)) (i : Nat) : Point K := ps.getD i Point.origin

/-- The shoelace term `x_i * y_{(i+1) mod n} - x_{(i+1) mod n} * y_i`. -/
def cross_term (ps : List (Point K)) (i : Nat) : K :=
  (vertex ps i).x * (vertex ps ((i + 1) % ps.length)).y
    - (vertex ps ((i + 1) % ps.length)).x * (vertex ps i).y

/-- The signed area as the specification words it: `0` when `n < 3`, otherwise
half the cyclic sum of the shoelace terms. -/
def signed_area_spec (ps : List (Point K)) : K :=
  if ps.length < 3 then 0
  else (1 / 2) * ∑ i in Finset.range ps.length, cross_term ps i

/-- The arithmetic mean of the vertices of a point sequence. -/
def mean_spec (ps : List (Point K)) : Point K :=
  ⟨(∑ i in Finset.range ps.length, (vertex ps i).x) / (ps.length : K),
   (∑ i in Finset.range ps.length, (vertex ps i).y) / (ps.length : K)⟩

/-- The area-weighted centroid of a point sequence with signed area `S`. -/
def weighted_spec (ps : List (Point K)) (S : K) : Point K :=
  ⟨(1 / (6 * S)) * ∑ i in Finset.range ps.length,
      ((vertex ps i).x + (vertex ps ((i + 1) % ps.length)).x) * cross_term ps i,
   (1 / (6 * S)) * ∑ i in Finset.range ps.length,
      ((vertex ps i).y + (vertex ps ((i + 1) % ps.length)).y) * cross_term ps i⟩

/-- The centroid as the specification words it, by cases on the number of points. -/
def center_spec (ps : List (Point K)) : Point K :=
  match ps with
  | [] => ⟨0, 0⟩
  | [p] => p
  | [p0, p1] => ⟨(p0.x + p1.x) / 2, (p0.y + p1.y) / 2⟩
  | _ =>
    if |signed_area_spec ps| < 1 / 10 ^ 9 then mean_spec ps
    else weighted_spec ps (signed_area_spec ps)

/-- The acceptance conditions (1)-(3) of the rhombus validator as the
specification words them: the midpoints of the diagonals `a–c` and `b–d` differ
by less than `1e-9` in each coordinate, the dot product of the diagonals is
below `1e-9` in absolute value, and neither squared diagonal length is within
`1e-9` of `0`. -/
def rhombus_spec (a b c d : Point K) : Prop :=
  (|(a.x + c.x) / 2 - (b.x + d.x) / 2| < 1 / 10 ^ 9
    ∧ |(a.y + c.y) / 2 - (b.y + d.y) / 2| < 1 / 10 ^ 9)
  ∧ |(c.x - a.x) * (d.x - b.x) + (c.y - a.y) * (d.y - b.y)| < 1 / 10 ^ 9
  ∧ (¬ |(c.x - a.x) ^ 2 + (c.y - a.y) ^ 2 - 0| < 1 / 10 ^ 9
    ∧ ¬ |(d.x - b.x) ^ 2 + (d.y - b.y) ^ 2 - 0| < 1 / 10 ^ 9)

instance rhombus_spec_decidable (a b c d : Point K) : Decidable (rhombus_spec a b c d) := by
  unfold rhombus_spec; infer_instance

/-- The squared distance between two points. -/
def sq_dist (p q : Point K) : K := (p.x - q.x) ^ 2 + (p.y - q.y) ^ 2

/-- The acceptance conditions of the regular-n-gon validator as the
specification words them: at least three points, every squared distance to the
mean of the points within `1e-9` of that of `p_0`, and every cyclic edge's
squared length within `1e-9` of that of the edge `p_0 → p_1`. -/
def regular_ngon_spec (ps : List (Point K)) : Prop :=
  3 ≤ ps.length
  ∧ (∀ i, i < ps.length →
      |sq_dist (vertex ps i) (mean_spec ps) - sq_dist (vertex ps 0) (mean_spec ps)| < 1 / 10 ^ 9)
  ∧ (∀ i, i < ps.length →
      |sq_dist (vertex ps i) (vertex ps ((i + 1) % ps.length))
        - sq_dist (vertex ps 0) (vertex ps 1)| < 1 / 10 ^ 9)

instance regular_ngon_spec_decidable (ps : List (Point K)) : Decidable (regular_ngon_spec ps) := by
  unfold regular_ngon_spec; infer_instance

/-! ## Shape values and their invariant -/

/-- The three concrete shape classes. -/
inductive Kind where
  | rhombus
  | pentagon
  | hexagon
deriving DecidableEq

/-- The number of points a shape of the kind is constructed from. -/
def Kind.arity : Kind → Nat
  | .rhombus => 4
  | .pentagon => 5
  | .hexagon => 6

/-- The validator of the kind accepts the point sequence: `check_rhombus` does
not report "not a rhombus", or `check_regular_ngon` returns `true`. -/
def Kind.accepts : Kind → List (Point K) → Bool
  | .rhombus, [a, b, c, d] => !check_rhombus a b c d
  | .rhombus, _ => false
  | .pentagon, ps =>
    match check_regular_ngon ps 5 with
    | .ok regular => regular
    | .error _ => false
  | .hexagon, ps =>
    match check_regular_ngon ps 6 with
    | .ok regular => regular
    | .error _ => false

/-- The validator invariant: the figure owns exactly as many points as its kind
requires, and the validator of the kind accepts them. -/
def validator_invariant (k : Kind) (f : Figure K) : Prop :=
  f.num_points = k.arity
    ∧ ∃ ps, f.points = some ps ∧ ps.length = k.arity ∧ k.accepts ps = true

/-- The figure owns no point: `num_points` is `0` and `points` is null or an
array of length `0`. -/
def Figure.owns_nothing (f : Figure K) : Prop :=
  f.num_points = 0 ∧ (f.points = none ∨ f.points = some [])

/-- The values of a shape class that the public operations produce: the default
constructor, the validating constructor, the copy constructor, the object built
by the move constructor, and the object after `read` (whether `read` returned
or threw). The source object of a move is not among them. -/
inductive Obtainable : Kind → Figure K → Prop where
  | default (k : Kind) : Obtainable k Figure.empty
  | rhombus_ctor (a b c d : Point K) (f : Figure K) :
      Rhombus.ctor a b c d = .ok f → Obtainable .rhombus f
  | pentagon_ctor (p1 p2 p3 p4 p5 : Point K) (f : Figure K) :
      Pentagon.ctor p1 p2 p3 p4 p5 = .ok f → Obtainable .pentagon f
  | hexagon_ctor (p1 p2 p3 p4 p5 p6 : Point K) (f : Figure K) :
      Hexagon.ctor p1 p2 p3 p4 p5 p6 = .ok f → Obtainable .hexagon f
  | copy (k : Kind) (other f : Figure K) :
      Obtainable k other → copy_ctor other = .ok f → Obtainable k f
  | move (k : Kind) (other : Figure K) :
      Obtainable k other → Obtainable k (move_ctor other).1
  | rhombus_read (this : Figure K) (a b c d : Point K) :
      Obtainable .rhombus this → Obtainable .rhombus (Rhombus.read this a b c d).1
  | pentagon_read (this : Figure K) (p1 p2 p3 p4 p5 : Point K) :
      Obtainable .pentagon this →
        Obtainable .pentagon (Pentagon.read this [p1, p2, p3, p4, p5]).1
  | hexagon_read (this : Figure K) (p1 p2 p3 p4 p5 p6 : Point K) :
      Obtainable .hexagon this →
        Obtainable .hexagon (Hexagon.read this [p1, p2, p3, p4, p5, p6]).1

/-- The rhombus of the test suite: `(1,0), (0,2), (-1,0), (0,-2)`. -/
def test_rhombus : Figure ℚ := ⟨some [⟨1, 0⟩, ⟨0, 2⟩, ⟨-1, 0⟩, ⟨0, -2⟩], 4⟩

/-- Four collinear points: `(1,1), (2,2), (3,3), (4,4)`. -/
def diagonal_points : List (Point ℚ) := [⟨1, 1⟩, ⟨2, 2⟩, ⟨3, 3⟩, ⟨4, 4⟩]

/-- The four points lie on one straight line `u * x + v * y = w`. -/
def on_one_line (a b c d : Point K) : Prop :=
  ∃ u v w : K, (u ≠ 0 ∨ v ≠ 0)
    ∧ u * a.x + v * a.y = w ∧ u * b.x + v * b.y = w
    ∧ u * c.x + v * c.y = w ∧ u * d.x + v * d.y = w

/-- All points of the sequence lie on one straight line `u * x + v * y = w`. -/
def collinear (ps : List (Point K)) : Prop :=
  ∃ u v w : K, (u ≠ 0 ∨ v ≠ 0) ∧ ∀ p, p ∈ ps → u * p.x + v * p.y = w

/-- The hexagon of the test suite with `h` in place of `0.86602540378`:
`(1,0), (1/2,h), (-1/2,h), (-1,0), (-1/2,-h), (1/2,-h)`. -/
def unit_hexagon (h : K) : List (Point K) :=
  [⟨1, 0⟩, ⟨1 / 2, h⟩, ⟨-1 / 2, h⟩, ⟨-1, 0⟩, ⟨-1 / 2, -h⟩, ⟨1 / 2, -h⟩]

/-! ## The instantiation at `T = int` -/

/-- The function `eq` called with two `int` arguments: each is converted to
`double` first, which is exact on the whole `int` range. -/
def eq_int (a b : Int) : Bool := eq (a : ℚ) (b : ℚ)

/-- The function `check_rhombus` at `T = int`: the local variables are `int`s,
`/ 2` is the truncating integer division, and `eq` receives them converted.
The arithmetic is that of unbounded integers, which is the `int` arithmetic as
long as no intermediate value leaves the `int` range (signed overflow has no
defined result). -/
def check_rhombus_int (a b c d : Point Int) : Bool :=
  let mid1_x := Int.tdiv (a.x + c.x) 2
  let mid1_y := Int.tdiv (a.y + c.y) 2
  let mid2_x := Int.tdiv (b.x + d.x) 2
  let mid2_y := Int.tdiv (b.y + d.y) 2
  if !eq_int mid1_x mid2_x || !eq_int mid1_y mid2_y then true
  else
    let vec1_x := c.x - a.x
    let vec1_y := c.y - a.y
    let vec2_x := d.x - b.x
    let vec2_y := d.y - b.y
    let dot_product := vec1_x * vec2_x + vec1_y * vec2_y
    if !eq_int dot_product 0 then true
    else
      let len_vec1_sq := vec1_x * vec1_x + vec1_y * vec1_y
      let len_vec2_sq := vec2_x * vec2_x + vec2_y * vec2_y
      if eq_int len_vec1_sq 0 || eq_int len_vec2_sq 0 then true
      else false

/-- The constructor `Rhombus(a, b, c, d)` at `T = int`. -/
def Rhombus.ctor_int (a b c d : Point Int) : Except Fault (Figure Int) :=
  if check_rhombus_int a b c d then
    .error (.invalid_argument "Error: Rhombus is not defined")
  else
    .ok ⟨some (((((List.replicate 4 (⟨0, 0⟩ : Point Int)).set 0 a).set 1 b).set 2 c).set 3 d),
      4⟩

/-! ## The instantiation at `T = double`, in binary64 arithmetic

A finite `double` is the rational number it stands for, and an operation
returns the correctly rounded result (IEEE 754 binary64, round to nearest,
ties to even) of the exact one. Every result that is not a finite number
(overflow, division by zero, an operand that is not finite) is the one value
`Double.not_finite`; comparisons with it are `false`, so the model follows the
code exactly as long as every value stays finite. The two zeros are one value. -/

/-- A `double`: the fraction `num / den` in lowest terms, or, with `den = 0`,
a value that is not a finite number. -/
structure Double where
  num : Int
  den : Nat
deriving DecidableEq

/-- The value standing for every `double` that is not a finite number. -/
def Double.not_finite : Double := ⟨0, 0⟩

/-- The number of binary digits of `n`, with `fuel` steps allowed. -/
def bit_length_aux : Nat → Nat → Nat
  | 0, _ => 0
  | fuel + 1, n => if n = 0 then 0 else bit_length_aux fuel (n / 2) + 1

/-- The number of binary digits of `n` (`n` steps are always enough). -/
def bit_length (n : Nat) : Nat := bit_length_aux n n

/-- The integer `t` with `2 ^ t ≤ p / q < 2 ^ (t + 1)`, for positive `p`, `q`. -/
def floor_log2 (p q : Nat) : Int :=
  let t : Int := (bit_length p : Int) - (bit_length q : Int)
  if 0 ≤ t then (if q * 2 ^ t.toNat ≤ p then t else t - 1)
  else (if q ≤ p * 2 ^ (-t).toNat then t else t - 1)

/-- The integer nearest to `p / q`, the even one of two equally near. -/
def nearest_even (p q : Nat) : Nat :=
  let m := p / q
  let r := p % q
  if 2 * r < q then m
  else if q < 2 * r then m + 1
  else if m % 2 = 0 then m else m + 1

/-- The `double` nearest to `n / d`: a significand `m` of at most 53 bits and
an exponent `e` not below `-1074`, value `m * 2 ^ e`; not finite when that value
reaches `2 ^ 1024`, or when `d = 0`. -/
def round64 (n : Int) (d : Nat) : Double :=
  if d = 0 then Double.not_finite
  else if n = 0 then ⟨0, 1⟩
  else
    let a := n.natAbs
    let e := max (floor_log2 a d - 52) (-1074)
    if 0 ≤ e then
      let m := nearest_even a (d * 2 ^ e.toNat)
      if 1024 < bit_length (m * 2 ^ e.toNat) then Double.not_finite
      else ⟨n.sign * (m * 2 ^ e.toNat : Nat), 1⟩
    else
      let m := nearest_even (a * 2 ^ (-e).toNat) d
      let g := Nat.gcd m (2 ^ (-e).toNat)
      ⟨n.sign * (m / g : Nat), 2 ^ (-e).toNat / g⟩

/-- The sum `a + b` of two `double`s. -/
def Double.add (a b : Double) : Double :=
  round64 (a.num * b.den + b.num * a.den) (a.den * b.den)

/-- The difference `a - b` of two `double`s. -/
def Double.sub (a b : Double) : Double :=
  round64 (a.num * b.den - b.num * a.den) (a.den * b.den)

/-- The product `a * b` of two `double`s. -/
def Double.mul (a b : Double) : Double :=
  round64 (a.num * b.num) (a.den * b.den)

/-- The quotient `a / b` of two `double`s. -/
def Double.div (a b : Double) : Double :=
  if b.num = 0 then Double.not_finite
  else round64 (a.num * b.den * b.num.sign) (a.den * b.num.natAbs)

/-- The value `std::abs(a)`. -/
def Double.abs (a : Double) : Double := ⟨(a.num.natAbs : Int), a.den⟩

/-- The comparison `a < b` of two `double`s. -/
def Double.lt (a b : Double) : Bool := decide (a.num * b.den < b.num * a.den)

/-- The conversion of a `size_t` or `int` value to `double`. -/
def Double.ofNat (n : Nat) : Double := round64 n 1

/-- The function `eq` on `double`s: `std::abs(a - b) < EPSILON`, the literal
`1e-9` being the `double` nearest to it. -/
def eq_double (a b : Double) : Bool :=
  (Double.abs (a.sub b)).lt (round64 1 (10 ^ 9))

/-- The expression `points[i]` used as a value, at `T = double`. -/
def Figure.at_double (f : Figure Double) (i : Nat) : Option (Point Double) :=
  match f.points with
  | none => none
  | some ps => ps[i]?

/-- The accumulator `area` of `find_signed_area` at `T = double` after the
loop body has run for `i = 0, …, k - 1`. -/
def Figure.signed_area_loop_double (f : Figure Double) : Nat → Option Double
  | 0 => some ⟨0, 1⟩
  | i + 1 => do
      let area ← f.signed_area_loop_double i
      let pi ← f.at_double i
      let pj ← f.at_double ((i + 1) % f.num_points)
      some ((area.add (pi.x.mul pj.y)).sub (pj.x.mul pi.y))

/-- The method `find_signed_area` at `T = double`. -/
def Figure.find_signed_area_double (f : Figure Double) : Option Double :=
  if f.num_points < 3 then some ⟨0, 1⟩
  else do
    let area ← f.signed_area_loop_double f.num_points
    some (area.div ⟨2, 1⟩)

/-- The conversion `operator double` at `T = double`. -/
def Figure.operator_double_double (f : Figure Double) : Option Double := do
  let s ← f.find_signed_area_double
  some (Double.abs s)

/-- The accumulators `(total_x, total_y)` of `find_center` at `T = double`
after the loop body has run for `i = 0, …, k - 1`. -/
def Figure.total_loop_double (f : Figure Double) : Nat → Option (Double × Double)
  | 0 => some (⟨0, 1⟩, ⟨0, 1⟩)
  | i + 1 => do
      let t ← f.total_loop_double i
      let p ← f.at_double i
      some (t.1.add p.x, t.2.add p.y)

/-- The accumulators `(c_x, c_y)` of the last loop of `find_center` at
`T = double` after the loop body has run for `i = 0, …, k - 1`. -/
def Figure.center_loop_double (f : Figure Double) : Nat → Option (Double × Double)
  | 0 => some (⟨0, 1⟩, ⟨0, 1⟩)
  | i + 1 => do
      let c ← f.center_loop_double i
      let pi ← f.at_double i
      let pj ← f.at_double ((i + 1) % f.num_points)
      let cross_product := (pi.x.mul pj.y).sub (pj.x.mul pi.y)
      some (c.1.add ((pi.x.add pj.x).mul cross_product),
            c.2.add ((pi.y.add pj.y).mul cross_product))

/-- The method `find_center` at `T = double`. -/
def Figure.find_center_double (f : Figure Double) : Option (Point Double) :=
  if f.num_points = 0 then some ⟨⟨0, 1⟩, ⟨0, 1⟩⟩
  else if f.num_points = 1 then f.at_double 0
  else if f.num_points = 2 then do
    let p0 ← f.at_double 0
    let p1 ← f.at_double 1
    some ⟨(p0.x.add p1.x).div ⟨2, 1⟩, (p0.y.add p1.y).div ⟨2, 1⟩⟩
  else do
    let signedArea ← f.find_signed_area_double
    if eq_double signedArea ⟨0, 1⟩ then
      let t ← f.total_loop_double f.num_points
      some ⟨t.1.div (Double.ofNat f.num_points), t.2.div (Double.ofNat f.num_points)⟩
    else
      let c ← f.center_loop_double f.num_points
      some ⟨c.1.div (Double.mul ⟨6, 1⟩ signedArea), c.2.div (Double.mul ⟨6, 1⟩ signedArea)⟩

/-- The function `check_rhombus` at `T = double`; `true` means "not a rhombus". -/
def check_rhombus_double (a b c d : Point Double) : Bool :=
  let mid1_x := (a.x.add c.x).div ⟨2, 1⟩
  let mid1_y := (a.y.add c.y).div ⟨2, 1⟩
  let mid2_x := (b.x.add d.x).div ⟨2, 1⟩
  let mid2_y := (b.y.add d.y).div ⟨2, 1⟩
  if !eq_double mid1_x mid2_x || !eq_double mid1_y mid2_y then true
  else
    let vec1_x := c.x.sub a.x
    let vec1_y := c.y.sub a.y
    let vec2_x := d.x.sub b.x
    let vec2_y := d.y.sub b.y
    let dot_product := (vec1_x.mul vec2_x).add (vec1_y.mul vec2_y)
    if !eq_double dot_product ⟨0, 1⟩ then true
    else
      let len_vec1_sq := (vec1_x.mul vec1_x).add (vec1_y.mul vec1_y)
      let len_vec2_sq := (vec2_x.mul vec2_x).add (vec2_y.mul vec2_y)
      if eq_double len_vec1_sq ⟨0, 1⟩ || eq_double len_vec2_sq ⟨0, 1⟩ then true
      else false

/-- The constructor `Rhombus(a, b, c, d)` at `T = double`. -/
def Rhombus.ctor_double (a b c d : Point Double) : Except Fault (Figure Double) :=
  if check_rhombus_double a b c d then
    .error (.invalid_argument "Error: Rhombus is not defined")
  else
    .ok ⟨some (((((List.replicate 4 (⟨⟨0, 1⟩, ⟨0, 1⟩⟩ : Point Double)).set 0 a).set 1 b).set 2
      c).set 3 d), 4⟩

/-- The function `distance_sq` at `T = double`. -/
def distance_sq_double (a b : Point Double) : Double :=
  let dx := a.x.sub b.x
  let dy := a.y.sub b.y
  (dx.mul dx).add (dy.mul dy)

/-- The accumulators `(center_x, center_y)` of `check_regular_ngon` at
`T = double` after the loop body has run for `i = 0, …, k - 1`. -/
def ngon_center_loop_double (points : List (Point Double)) : Nat → Option (Double × Double)
  | 0 => some (⟨0, 1⟩, ⟨0, 1⟩)
  | i + 1 => do
      let c ← ngon_center_loop_double points i
      let p ← points[i]?
      some (c.1.add p.x, c.2.add p.y)

/-- The second loop of `check_regular_ngon` at `T = double` after its body has
been reached for `i = 1, …, k`: `false` once it has executed `return false`. -/
def ngon_radius_loop_double (points : List (Point Double)) (center : Point Double)
    (dist_sq_center : Double) : Nat → Option Bool
  | 0 => some true
  | k + 1 => do
      let running ← ngon_radius_loop_double points center dist_sq_center k
      if !running then some false
      else do
        let p ← points[k + 1]?
        if !eq_double (distance_sq_double center p) dist_sq_center then some false
        else some true

/-- The third loop of `check_regular_ngon` at `T = double` after its body has
been reached for `i = 1, …, k`: `false` once it has executed `return false`. -/
def ngon_side_loop_double (points : List (Point Double)) (n : Nat)
    (side_len_sq : Double) : Nat → Option Bool
  | 0 => some true
  | k + 1 => do
      let running ← ngon_side_loop_double points n side_len_sq k
      if !running then some false
      else do
        let j := (k + 1 + 1) % n
        let pi ← points[k + 1]?
        let pj ← points[j]?
        if !eq_double (distance_sq_double pi pj) side_len_sq then some false
        else some true

/-- The function `check_regular_ngon(points, n)` at `T = double`. -/
def check_regular_ngon_double (points : List (Point Double)) (n : Nat) : Option Bool :=
  if n < 3 then some false
  else do
    let c ← ngon_center_loop_double points n
    let center : Point Double := ⟨c.1.div (Double.ofNat n), c.2.div (Double.ofNat n)⟩
    let p0 ← points[0]?
    let dist_sq_center := distance_sq_double center p0
    let running ← ngon_radius_loop_double points center dist_sq_center (n - 1)
    if !running then some false
    else do
      let p1 ← points[1]?
      let side_len_sq := distance_sq_double p0 p1
      let running ← ngon_side_loop_double points n side_len_sq (n - 1)
      if !running then some false
      else some true

/-- The constructor `Hexagon(p1, …, p6)` at `T = double`: the object built or
the exception thrown; `none` past the end of an array. -/
def Hexagon.ctor_double (p1 p2 p3 p4 p5 p6 : Point Double) :
    Option (Except Fault (Figure Double)) := do
  let input_points := [p1, p2, p3, p4, p5, p6]
  let regular ← check_regular_ngon_double input_points 6
  if !regular then some (.error (.invalid_argument "Error: Points do not form a regular hexagon"))
  else some (.ok ⟨some input_points, 6⟩)

/-- The triangle `(0,7), (1e17,3), (2,7)`. -/
def wide_triangle : List (Point Double) :=
  [⟨⟨0, 1⟩, ⟨7, 1⟩⟩, ⟨⟨100000000000000000, 1⟩, ⟨3, 1⟩⟩, ⟨⟨2, 1⟩, ⟨7, 1⟩⟩]

/-- The triangle `(-1,-1e16), (0,-1e16), (3e16,1e16)`. -/
def tall_triangle : List (Point Double) :=
  [⟨⟨-1, 1⟩, ⟨-10000000000000000, 1⟩⟩, ⟨⟨0, 1⟩, ⟨-10000000000000000, 1⟩⟩,
   ⟨⟨30000000000000000, 1⟩, ⟨10000000000000000, 1⟩⟩]

/-- The collinear points `(1,2), (1e8,1e8+1), (99999999,1e8)` on `y = x + 1`. -/
def far_collinear : List (Point Double) :=
  [⟨⟨1, 1⟩, ⟨2, 1⟩⟩, ⟨⟨100000000, 1⟩, ⟨100000001, 1⟩⟩, ⟨⟨99999999, 1⟩, ⟨100000000, 1⟩⟩]

/-- The square with centre `(2^27, 2^27)` and half diagonals `(2,1)`, `(-1,2)`:
`(2^27+2, 2^27+1), (2^27-1, 2^27+2), (2^27-2, 2^27-1), (2^27+1, 2^27-2)`. -/
def far_square : List (Point Double) :=
  [⟨⟨134217730, 1⟩, ⟨134217729, 1⟩⟩, ⟨⟨134217727, 1⟩, ⟨134217730, 1⟩⟩,
   ⟨⟨134217726, 1⟩, ⟨134217727, 1⟩⟩, ⟨⟨134217729, 1⟩, ⟨134217726, 1⟩⟩]

/-- The `double` of the literal `0.86602540378`. -/
def test_h : Double := round64 86602540378 (10 ^ 11)

/-- The hexagon of the test suite, in `double`s. -/
def test_hexagon : List (Point Double) :=
  [⟨⟨1, 1⟩, ⟨0, 1⟩⟩, ⟨⟨1, 2⟩, test_h⟩, ⟨⟨-1, 2⟩, test_h⟩, ⟨⟨-1, 1⟩, ⟨0, 1⟩⟩,
   ⟨⟨-1, 2⟩, ⟨-test_h.num, test_h.den⟩⟩, ⟨⟨1, 2⟩, ⟨-test_h.num, test_h.den⟩⟩]

/-- The coordinate is a `double`: rounding it gives it back. -/
def Double.is_double (a : Double) : Bool := decide (round64 a.num a.den = a)

/-- Every coordinate of the points is a finite `double`. -/
def all_doubles (ps : List (Point Double)) : Bool :=
  ps.all (fun p => p.x.is_double && p.x.den != 0 && p.y.is_double && p.y.den != 0)

/-- The formula `(1/2) * |(c.x-a.x)*(d.y-b.y) - (c.y-a.y)*(d.x-b.x)|` evaluated
in `double`s. -/
def half_cross_double (a b c d : Point Double) : Double :=
  Double.mul ⟨1, 2⟩
    (Double.abs (((c.x.sub a.x).mul (d.y.sub b.y)).sub ((c.y.sub a.y).mul (d.x.sub b.x))))

/-! ## Theorems -/

theorem read_at_some_lt (ps : List (Point K)) {i : Nat} (h : i < ps.length) :
    read_at (some ps) i = .ok (vertex ps i) := by
  simp [read_at, vertex, List.getElem?_eq_getElem h, List.getD_eq_getElem _ _ h]

theorem at_ofList_lt (ps : List (Point K)) {i : Nat} (h : i < ps.length) :
    (Figure.ofList ps).at i = .ok (vertex ps i) := by
  simp [Figure.at, Figure.ofList, read_at_some_lt ps h]

theorem succ_mod_lt_length {α : Type} (ps : List α) {i : Nat} (h : i < ps.length) :
    (i + 1) % ps.length < ps.length :=
  Nat.mod_lt _ (Nat.lt_of_le_of_lt (Nat.zero_le i) h)

theorem signed_area_loop_ofList (ps : List (Point K)) :
    ∀ k, k ≤ ps.length →
      (Figure.ofList ps).signed_area_loop k = .ok (∑ i in Finset.range k, cross_term ps i) := by
  intro k
  induction k with
  | zero => intro _; simp [Figure.signed_area_loop]
  | succ i ih =>
    intro hk
    have hi : i < ps.length := hk
    have hj := succ_mod_lt_length ps hi
    have hn : (Figure.ofList ps).num_points = ps.length := rfl
    simp only [Figure.signed_area_loop, ih (Nat.le_of_lt hi), at_ofList_lt ps hi, hn,
      at_ofList_lt ps hj, bind, Except.bind, Finset.sum_range_succ, cross_term,
      Point.get_x, Point.get_y]
    congr 1
    ring

theorem find_signed_area_ofList (ps : List (Point K)) :
    (Figure.ofList ps).find_signed_area = .ok (signed_area_spec ps) := by
  have hn : (Figure.ofList ps).num_points = ps.length := rfl
  unfold Figure.find_signed_area signed_area_spec
  rw [hn]
  split
  · rfl
  · simp only [signed_area_loop_ofList ps _ (Nat.le_refl _), bind, Except.bind]
    congr 1
    ring

theorem total_loop_ofList (ps : List (Point K)) :
    ∀ k, k ≤ ps.length →
      (Figure.ofList ps).total_loop k
        = .ok (∑ i in Finset.range k, (vertex ps i).x, ∑ i in Finset.range k, (vertex ps i).y) := by
  intro k
  induction k with
  | zero => intro _; simp [Figure.total_loop]
  | succ i ih =>
    intro hk
    have hi : i < ps.length := hk
    simp only [Figure.total_loop, ih (Nat.le_of_lt hi), at_ofList_lt ps hi, bind, Except.bind,
      Finset.sum_range_succ, Point.get_x, Point.get_y]

theorem center_loop_ofList (ps : List (Point K)) :
    ∀ k, k ≤ ps.length →
      (Figure.ofList ps).center_loop k
        = .ok (∑ i in Finset.range k,
                ((vertex ps i).x + (vertex ps ((i + 1) % ps.length)).x) * cross_term ps i,
               ∑ i in Finset.range k,
                ((vertex ps i).y + (vertex ps ((i + 1) % ps.length)).y) * cross_term ps i) := by
  intro k
  induction k with
  | zero => intro _; simp [Figure.center_loop]
  | succ i ih =>
    intro hk
    have hi : i < ps.length := hk
    have hj := succ_mod_lt_length ps hi
    have hn : (Figure.ofList ps).num_points = ps.length := rfl
    simp only [Figure.center_loop, ih (Nat.le_of_lt hi), at_ofList_lt ps hi, hn,
      at_ofList_lt ps hj, bind, Except.bind, Finset.sum_range_succ, cross_term,
      Point.get_x, Point.get_y]

theorem eq_zero_iff (s : K) : eq s 0 = true ↔ |s| < 1 / 10 ^ 9 := by
  simp [eq, EPSILON]

/-- C1: for every point sequence, `operator double` returns the absolute value
of the signed area, the signed area being `0` below three points and half the
cyclic shoelace sum otherwise; the value returned is never negative. -/
theorem C1_area_is_abs_signed_area (ps : List (Point K)) :
    ∃ area : K, (Figure.ofList ps).operator_double = .ok area
      ∧ area = |signed_area_spec ps| ∧ 0 ≤ area := by
  refine ⟨|signed_area_spec ps|, ?_, rfl, abs_nonneg _⟩
  simp only [Figure.operator_double, find_signed_area_ofList, bind, Except.bind]

/-- C2: for every point sequence, `find_center` returns `(0,0)` for no point,
the point itself for one, the midpoint for two, and from three points on the
mean of the vertices when `|S| < 1e-9` and the area-weighted quotient
otherwise, `S` being the signed area. -/
theorem C2_find_center_cases (ps : List (Point K)) :
    (Figure.ofList ps).find_center = .ok (center_spec ps) := by
  match ps with
  | [] => simp [Figure.find_center, Figure.ofList, center_spec]
  | [p] => simp [Figure.find_center, Figure.ofList, center_spec, Figure.at, read_at]
  | [p0, p1] =>
    simp [Figure.find_center, Figure.ofList, center_spec, Figure.at, read_at, bind, Except.bind]
  | p0 :: p1 :: p2 :: rest =>
    have hn : (Figure.ofList (p0 :: p1 :: p2 :: rest)).num_points
        = (p0 :: p1 :: p2 :: rest).length := rfl
    have h0 : (p0 :: p1 :: p2 :: rest).length ≠ 0 := by simp
    have h1 : (p0 :: p1 :: p2 :: rest).length ≠ 1 := by simp
    have h2 : (p0 :: p1 :: p2 :: rest).length ≠ 2 := by simp
    unfold Figure.find_center center_spec
    rw [hn, if_neg h0, if_neg h1, if_neg h2]
    simp only [find_signed_area_ofList, bind, Except.bind]
    by_cases hS : |signed_area_spec (p0 :: p1 :: p2 :: rest)| < 1 / 10 ^ 9
    · rw [if_pos ((eq_zero_iff _).2 hS), if_pos hS]
      simp only [total_loop_ofList _ _ (Nat.le_refl _), mean_spec]
    · rw [if_neg (fun h => hS ((eq_zero_iff _).1 h)), if_neg hS]
      simp only [center_loop_ofList _ _ (Nat.le_refl _), weighted_spec]
      congr 1
      congr 1 <;> rw [div_eq_mul_inv, one_div, mul_comm]

theorem eq_iff (a b : K) : eq a b = true ↔ |a - b| < 1 / 10 ^ 9 := by
  simp [eq, EPSILON]

theorem check_rhombus_eq_false_iff (a b c d : Point K) :
    check_rhombus a b c d = false ↔ rhombus_spec a b c d := by
  simp only [check_rhombus, rhombus_spec, Point.get_x, Point.get_y, sub_zero, pow_two]
  rw [← eq_iff, ← eq_iff, ← eq_zero_iff, ← eq_zero_iff, ← eq_zero_iff]
  by_cases h1 : eq ((a.x + c.x) / 2) ((b.x + d.x) / 2) = true <;>
  by_cases h2 : eq ((a.y + c.y) / 2) ((b.y + d.y) / 2) = true <;>
  by_cases h3 : eq ((c.x - a.x) * (d.x - b.x) + (c.y - a.y) * (d.y - b.y)) 0 = true <;>
  by_cases h4 : eq ((c.x - a.x) * (c.x - a.x) + (c.y - a.y) * (c.y - a.y)) 0 = true <;>
  by_cases h5 : eq ((d.x - b.x) * (d.x - b.x) + (d.y - b.y) * (d.y - b.y)) 0 = true <;>
  simp [h1, h2, h3, h4, h5]

theorem rhombus_store_eq (this : Figure K) (a b c d : Point K) :
    Rhombus.store this a b c d = .ok ⟨some [a, b, c, d], 4⟩ := by
  simp [Rhombus.store, make_unique, Figure.set, bind, Except.bind, List.replicate]

/-- C3: `Rhombus(a,b,c,d)` returns the shape owning exactly `a,b,c,d` in that
order if and only if conditions (1)-(3) of the validator hold, and throws
`std::invalid_argument` (no shape) if and only if they do not. -/
theorem C3_rhombus_ctor_iff (a b c d : Point K) :
    (Rhombus.ctor a b c d = .ok ⟨some [a, b, c, d], 4⟩ ↔ rhombus_spec a b c d)
    ∧ (Rhombus.ctor a b c d = .error (.invalid_argument "Error: Rhombus is not defined")
        ↔ ¬ rhombus_spec a b c d) := by
  rw [← check_rhombus_eq_false_iff]
  unfold Rhombus.ctor
  cases h : check_rhombus a b c d <;> simp [rhombus_store_eq]

theorem ngon_center_loop_eq (ps : List (Point K)) :
    ∀ k, k ≤ ps.length →
      ngon_center_loop ps k
        = .ok (∑ i in Finset.range k, (vertex ps i).x, ∑ i in Finset.range k, (vertex ps i).y) := by
  intro k
  induction k with
  | zero => intro _; simp [ngon_center_loop]
  | succ i ih =>
    intro hk
    have hi : i < ps.length := hk
    simp only [ngon_center_loop, ih (Nat.le_of_lt hi), read_at_some_lt ps hi, bind, Except.bind,
      Finset.sum_range_succ, Point.get_x, Point.get_y]

theorem ngon_radius_loop_eq (ps : List (Point K)) (center : Point K) (d0 : K) :
    ∀ k, k + 1 ≤ ps.length →
      ∃ running, ngon_radius_loop ps center d0 k = .ok running
        ∧ (running = true ↔
            ∀ i, 1 ≤ i → i ≤ k → eq (distance_sq center (vertex ps i)) d0 = true) := by
  intro k
  induction k with
  | zero =>
    intro _
    exact ⟨true, rfl, by simp; intro i h1 h0; omega⟩
  | succ k ih =>
    intro hk
    obtain ⟨running, hrun, hiff⟩ := ih (Nat.le_of_succ_le hk)
    have hlt : k + 1 < ps.length := hk
    cases running with
    | false =>
      refine ⟨false, by simp [ngon_radius_loop, hrun, bind, Except.bind], ?_⟩
      constructor
      · intro h; cases h
      · intro h
        exact hiff.2 (fun i h1 hik => h i h1 (Nat.le_succ_of_le hik))
    | true =>
      have hprev := hiff.1 rfl
      refine ⟨eq (distance_sq center (vertex ps (k + 1))) d0, ?_, ?_⟩
      · simp only [ngon_radius_loop, hrun, read_at_some_lt ps hlt, bind, Except.bind]
        cases eq (distance_sq center (vertex ps (k + 1))) d0 <;> rfl
      · constructor
        · intro h i h1 hik
          rcases Nat.lt_or_ge i (k + 1) with hlt' | hge
          · exact hprev i h1 (Nat.le_of_lt_succ hlt')
          · have : i = k + 1 := Nat.le_antisymm hik hge
            rw [this]; exact h
        · intro h
          exact h (k + 1) (Nat.succ_le_succ (Nat.zero_le k)) (Nat.le_refl _)

theorem ngon_side_loop_eq (ps : List (Point K)) (s0 : K) :
    ∀ k, k + 1 ≤ ps.length →
      ∃ running, ngon_side_loop ps ps.length s0 k = .ok running
        ∧ (running = true ↔
            ∀ i, 1 ≤ i → i ≤ k →
              eq (distance_sq (vertex ps i) (vertex ps ((i + 1) % ps.length))) s0 = true) := by
  intro k
  induction k with
  | zero =>
    intro _
    exact ⟨true, rfl, by simp; intro i h1 h0; omega⟩
  | succ k ih =>
    intro hk
    obtain ⟨running, hrun, hiff⟩ := ih (Nat.le_of_succ_le hk)
    have hlt : k + 1 < ps.length := hk
    have hj := succ_mod_lt_length ps hlt
    cases running with
    | false =>
      refine ⟨false, by simp [ngon_side_loop, hrun, bind, Except.bind], ?_⟩
      constructor
      · intro h; cases h
      · intro h
        exact hiff.2 (fun i h1 hik => h i h1 (Nat.le_succ_of_le hik))
    | true =>
      have hprev := hiff.1 rfl
      refine ⟨eq (distance_sq (vertex ps (k + 1)) (vertex ps ((k + 1 + 1) % ps.length))) s0,
        ?_, ?_⟩
      · simp only [ngon_side_loop, hrun, read_at_some_lt ps hlt, read_at_some_lt ps hj,
          bind, Except.bind]
        cases eq (distance_sq (vertex ps (k + 1)) (vertex ps ((k + 1 + 1) % ps.length))) s0 <;>
          rfl
      · constructor
        · intro h i h1 hik
          rcases Nat.lt_or_ge i (k + 1) with hlt' | hge
          · exact hprev i h1 (Nat.le_of_lt_succ hlt')
          · have : i = k + 1 := Nat.le_antisymm hik hge
            rw [this]; exact h
        · intro h
          exact h (k + 1) (Nat.succ_le_succ (Nat.zero_le k)) (Nat.le_refl _)

theorem distance_sq_eq_sq_dist (p q : Point K) : distance_sq p q = sq_dist p q := by
  simp only [distance_sq, sq_dist, Point.get_x, Point.get_y]; ring

theorem distance_sq_comm (p q : Point K) : distance_sq p q = distance_sq q p := by
  simp only [distance_sq, Point.get_x, Point.get_y]; ring

theorem eq_self (a : K) : eq a a = true := by
  simp [eq, EPSILON]

theorem check_regular_ngon_eq (ps : List (Point K)) :
    check_regular_ngon ps ps.length = .ok (decide (regular_ngon_spec ps)) := by
  by_cases h3 : ps.length < 3
  · have : ¬ regular_ngon_spec ps := fun h => absurd h.1 (Nat.not_le_of_lt h3)
    simp [check_regular_ngon, h3, this]
  · have hn : 3 ≤ ps.length := Nat.le_of_not_lt h3
    have h0 : 0 < ps.length := by omega
    have h1 : 1 < ps.length := by omega
    have hk : ps.length - 1 + 1 ≤ ps.length := by omega
    obtain ⟨r1, hr1, hiff1⟩ := ngon_radius_loop_eq ps (mean_spec ps)
      (distance_sq (mean_spec ps) (vertex ps 0)) (ps.length - 1) hk
    obtain ⟨r2, hr2, hiff2⟩ := ngon_side_loop_eq ps
      (distance_sq (vertex ps 0) (vertex ps 1)) (ps.length - 1) hk
    have hcenter : (⟨(∑ i in Finset.range ps.length, (vertex ps i).x) / (ps.length : K),
        (∑ i in Finset.range ps.length, (vertex ps i).y) / (ps.length : K)⟩ : Point K)
        = mean_spec ps := rfl
    have hspec1 : r1 = true ↔ ∀ i, i < ps.length →
        |sq_dist (vertex ps i) (mean_spec ps) - sq_dist (vertex ps 0) (mean_spec ps)|
          < 1 / 10 ^ 9 := by
      rw [hiff1]
      constructor
      · intro h i hi
        rw [← distance_sq_eq_sq_dist, ← distance_sq_eq_sq_dist, ← eq_iff,
          distance_sq_comm (vertex ps i), distance_sq_comm (vertex ps 0)]
        rcases Nat.eq_zero_or_pos i with hz | hpos
        · rw [hz]; exact eq_self _
        · exact h i hpos (by omega)
      · intro h i _ hik
        have := h i (by omega)
        rw [← distance_sq_eq_sq_dist, ← distance_sq_eq_sq_dist, ← eq_iff,
          distance_sq_comm (vertex ps i), distance_sq_comm (vertex ps 0)] at this
        exact this
    have hspec2 : r2 = true ↔ ∀ i, i < ps.length →
        |sq_dist (vertex ps i) (vertex ps ((i + 1) % ps.length))
          - sq_dist (vertex ps 0) (vertex ps 1)| < 1 / 10 ^ 9 := by
      rw [hiff2]
      constructor
      · intro h i hi
        rw [← distance_sq_eq_sq_dist, ← distance_sq_eq_sq_dist, ← eq_iff]
        rcases Nat.eq_zero_or_pos i with hz | hpos
        · rw [hz, Nat.zero_add, Nat.mod_eq_of_lt h1]; exact eq_self _
        · exact h i hpos (by omega)
      · intro h i _ hik
        have := h i (by omega)
        rw [← distance_sq_eq_sq_dist, ← distance_sq_eq_sq_dist, ← eq_iff] at this
        exact this
    unfold check_regular_ngon
    rw [if_neg h3]
    simp only [ngon_center_loop_eq ps _ (Nat.le_refl _), read_at_some_lt ps h0,
      read_at_some_lt ps h1, hcenter, hr1, hr2, bind, Except.bind]
    cases r1 with
    | false =>
      have : ¬ regular_ngon_spec ps := fun h => by
        have := hspec1.2 h.2.1
        cases this
      simp [this]
    | true =>
      cases r2 with
      | false =>
        have : ¬ regular_ngon_spec ps := fun h => by
          have := hspec2.2 h.2.2
          cases this
        simp [this]
      | true =>
        have : regular_ngon_spec ps := ⟨hn, hspec1.1 rfl, hspec2.1 rfl⟩
        simp [this]

theorem set_take_drop {α : Type} (s d : List α) (k : Nat) (hs : k < s.length)
    (hd : k < d.length) :
    (s.take k ++ d.drop k).set k s[k] = s.take (k + 1) ++ d.drop (k + 1) := by
  have hlen : (s.take k).length = k := by
    rw [List.length_take]; omega
  have htake : s.take (k + 1) = s.take k ++ [s[k]] := by
    rw [List.take_succ, List.getElem?_eq_getElem hs]; rfl
  have hle : (s.take k).length ≤ k := by omega
  rw [List.set_append_right _ _ hle, hlen, Nat.sub_self, List.drop_eq_getElem_cons hd,
    List.set_cons_zero, htake, List.append_assoc]
  rfl

theorem fill_loop_some (d s : List (Point K)) (m : Nat) :
    ∀ k, k ≤ d.length → k ≤ s.length →
      fill_loop (⟨some d, m⟩ : Figure K) (some s) k
        = .ok ⟨some (s.take k ++ d.drop k), m⟩ := by
  intro k
  induction k with
  | zero => intro _ _; simp [fill_loop]
  | succ k ih =>
    intro hkd hks
    have hd : k < d.length := hkd
    have hs : k < s.length := hks
    have hlen : k < (s.take k ++ d.drop k).length := by
      rw [List.length_append, List.length_take, List.length_drop]; omega
    have hv : vertex s k = s[k] := by
      simp [vertex, List.getElem?_eq_getElem hs]
    simp only [fill_loop, ih (Nat.le_of_lt hd) (Nat.le_of_lt hs), bind, Except.bind,
      read_at_some_lt s hs, Figure.set, if_pos hlen, hv, set_take_drop s d k hs hd]

theorem ngon_store_eq (this : Figure K) (input_points : List (Point K)) :
    ngon_store this input_points.length input_points = .ok (Figure.ofList input_points) := by
  unfold ngon_store make_unique
  simp only []
  rw [fill_loop_some _ _ _ _ (by simp) (Nat.le_refl _)]
  simp [Figure.ofList]

theorem ngon_ctor_eq (what : String) (input_points : List (Point K)) :
    ngon_ctor input_points.length what input_points
      = if regular_ngon_spec input_points then .ok (Figure.ofList input_points)
        else .error (.invalid_argument what) := by
  unfold ngon_ctor
  simp only [check_regular_ngon_eq, bind, Except.bind]
  by_cases h : regular_ngon_spec input_points
  · simp [h, ngon_store_eq]
  · simp [h]

/-- C4: on an array of `n` points `check_regular_ngon` returns, and returns
`true` exactly when `n ≥ 3`, every squared distance to the mean of the points
is within `1e-9` of that of `p_0`, and every cyclic edge's squared length is
within `1e-9` of that of `p_0 → p_1`; the Pentagon and Hexagon constructors
store the given points in order when it returns `true` and throw
`std::invalid_argument` otherwise. -/
theorem C4_regular_ngon_criterion :
    (∀ ps : List (Point K),
      check_regular_ngon ps ps.length = .ok (decide (regular_ngon_spec ps)))
    ∧ (∀ p1 p2 p3 p4 p5 : Point K,
        (Pentagon.ctor p1 p2 p3 p4 p5 = .ok ⟨some [p1, p2, p3, p4, p5], 5⟩
          ↔ check_regular_ngon [p1, p2, p3, p4, p5] 5 = .ok true)
        ∧ (Pentagon.ctor p1 p2 p3 p4 p5
            = .error (.invalid_argument "Error: Points do not form a regular pentagon")
          ↔ check_regular_ngon [p1, p2, p3, p4, p5] 5 ≠ .ok true))
    ∧ (∀ p1 p2 p3 p4 p5 p6 : Point K,
        (Hexagon.ctor p1 p2 p3 p4 p5 p6 = .ok ⟨some [p1, p2, p3, p4, p5, p6], 6⟩
          ↔ check_regular_ngon [p1, p2, p3, p4, p5, p6] 6 = .ok true)
        ∧ (Hexagon.ctor p1 p2 p3 p4 p5 p6
            = .error (.invalid_argument "Error: Points do not form a regular hexagon")
          ↔ check_regular_ngon [p1, p2, p3, p4, p5, p6] 6 ≠ .ok true)) := by
  refine ⟨check_regular_ngon_eq, ?_, ?_⟩
  · intro p1 p2 p3 p4 p5
    have h : check_regular_ngon [p1, p2, p3, p4, p5] 5 = _ :=
      check_regular_ngon_eq [p1, p2, p3, p4, p5]
    have hc : ngon_ctor 5 _ [p1, p2, p3, p4, p5] = _ :=
      ngon_ctor_eq "Error: Points do not form a regular pentagon" [p1, p2, p3, p4, p5]
    unfold Pentagon.ctor
    rw [hc, h]
    by_cases hs : regular_ngon_spec [p1, p2, p3, p4, p5] <;> simp [hs, Figure.ofList]
  · intro p1 p2 p3 p4 p5 p6
    have h : check_regular_ngon [p1, p2, p3, p4, p5, p6] 6 = _ :=
      check_regular_ngon_eq [p1, p2, p3, p4, p5, p6]
    have hc : ngon_ctor 6 _ [p1, p2, p3, p4, p5, p6] = _ :=
      ngon_ctor_eq "Error: Points do not form a regular hexagon" [p1, p2, p3, p4, p5, p6]
    unfold Hexagon.ctor
    rw [hc, h]
    by_cases hs : regular_ngon_spec [p1, p2, p3, p4, p5, p6] <;> simp [hs, Figure.ofList]

theorem ngon_read_eq (what : String) (this : Figure K) (input_points : List (Point K)) :
    ngon_read input_points.length what this input_points
      = if regular_ngon_spec input_points then (Figure.ofList input_points, .ok ())
        else (this, .error (.invalid_argument what)) := by
  unfold ngon_read
  simp only [check_regular_ngon_eq]
  by_cases h : regular_ngon_spec input_points
  · simp [h, ngon_store_eq]
  · simp [h]

/-- C5: whatever the state of the shape, `read` on accepted points leaves the
shape owning exactly the parsed points (the value the constructor builds from
them) and returns; on rejected points it throws `std::invalid_argument` and
the shape is the value it was before the call. -/
theorem C5_read_commits_or_keeps (s : Figure K) :
    (∀ a b c d : Point K,
      (check_rhombus a b c d = false →
        Rhombus.read s a b c d = (⟨some [a, b, c, d], 4⟩, .ok ())
          ∧ Rhombus.ctor a b c d = .ok (Rhombus.read s a b c d).1)
      ∧ (check_rhombus a b c d = true →
        Rhombus.read s a b c d
          = (s, .error (.invalid_argument "Error: Input points do not form a rhombus"))))
    ∧ (∀ p1 p2 p3 p4 p5 : Point K,
      (check_regular_ngon [p1, p2, p3, p4, p5] 5 = .ok true →
        Pentagon.read s [p1, p2, p3, p4, p5] = (⟨some [p1, p2, p3, p4, p5], 5⟩, .ok ())
          ∧ Pentagon.ctor p1 p2 p3 p4 p5 = .ok (Pentagon.read s [p1, p2, p3, p4, p5]).1)
      ∧ (check_regular_ngon [p1, p2, p3, p4, p5] 5 = .ok false →
        Pentagon.read s [p1, p2, p3, p4, p5]
          = (s, .error (.invalid_argument
              "Error: Input points do not form a regular pentagon"))))
    ∧ (∀ p1 p2 p3 p4 p5 p6 : Point K,
      (check_regular_ngon [p1, p2, p3, p4, p5, p6] 6 = .ok true →
        Hexagon.read s [p1, p2, p3, p4, p5, p6]
            = (⟨some [p1, p2, p3, p4, p5, p6], 6⟩, .ok ())
          ∧ Hexagon.ctor p1 p2 p3 p4 p5 p6
            = .ok (Hexagon.read s [p1, p2, p3, p4, p5, p6]).1)
      ∧ (check_regular_ngon [p1, p2, p3, p4, p5, p6] 6 = .ok false →
        Hexagon.read s [p1, p2, p3, p4, p5, p6]
          = (s, .error (.invalid_argument
              "Error: Input points do not form a regular hexagon")))) := by
  refine ⟨?_, ?_, ?_⟩
  · intro a b c d
    constructor
    · intro h
      simp [Rhombus.read, Rhombus.ctor, h, rhombus_store_eq]
    · intro h
      simp [Rhombus.read, h]
  · intro p1 p2 p3 p4 p5
    have h : check_regular_ngon [p1, p2, p3, p4, p5] 5 = _ :=
      check_regular_ngon_eq [p1, p2, p3, p4, p5]
    have hr : ngon_read 5 _ s [p1, p2, p3, p4, p5] = _ :=
      ngon_read_eq "Error: Input points do not form a regular pentagon" s
        [p1, p2, p3, p4, p5]
    have hc : ngon_ctor 5 _ [p1, p2, p3, p4, p5] = _ :=
      ngon_ctor_eq "Error: Points do not form a regular pentagon" [p1, p2, p3, p4, p5]
    unfold Pentagon.read Pentagon.ctor
    rw [hr, hc, h]
    by_cases hs : regular_ngon_spec [p1, p2, p3, p4, p5] <;> simp [hs, Figure.ofList]
  · intro p1 p2 p3 p4 p5 p6
    have h : check_regular_ngon [p1, p2, p3, p4, p5, p6] 6 = _ :=
      check_regular_ngon_eq [p1, p2, p3, p4, p5, p6]
    have hr : ngon_read 6 _ s [p1, p2, p3, p4, p5, p6] = _ :=
      ngon_read_eq "Error: Input points do not form a regular hexagon" s
        [p1, p2, p3, p4, p5, p6]
    have hc : ngon_ctor 6 _ [p1, p2, p3, p4, p5, p6] = _ :=
      ngon_ctor_eq "Error: Points do not form a regular hexagon" [p1, p2, p3, p4, p5, p6]
    unfold Hexagon.read Hexagon.ctor
    rw [hr, hc, h]
    by_cases hs : regular_ngon_spec [p1, p2, p3, p4, p5, p6] <;> simp [hs, Figure.ofList]

theorem rhombus_ctor_ok (a b c d : Point K) (f : Figure K)
    (h : Rhombus.ctor a b c d = .ok f) :
    f = ⟨some [a, b, c, d], 4⟩ ∧ check_rhombus a b c d = false := by
  unfold Rhombus.ctor at h
  cases hc : check_rhombus a b c d with
  | true => simp [hc] at h
  | false =>
    simp only [hc, rhombus_store_eq] at h
    simp at h
    exact ⟨h.symm, rfl⟩

theorem accepts_of_regular (k : Kind) (ps : List (Point K)) (hk : k ≠ .rhombus)
    (hlen : ps.length = k.arity) (h : regular_ngon_spec ps) : k.accepts ps = true := by
  have hc := check_regular_ngon_eq ps
  cases k with
  | rhombus => exact absurd rfl hk
  | pentagon =>
    have h5 : ps.length = 5 := hlen
    rw [h5] at hc
    simp [Kind.accepts, hc, h]
  | hexagon =>
    have h6 : ps.length = 6 := hlen
    rw [h6] at hc
    simp [Kind.accepts, hc, h]

theorem copy_ctor_some (ps : List (Point K)) :
    copy_ctor (⟨some ps, ps.length⟩ : Figure K) = .ok ⟨some ps, ps.length⟩ := by
  unfold copy_ctor make_unique
  simp only []
  rw [fill_loop_some _ _ _ _ (by simp) (Nat.le_refl _)]
  simp

theorem copy_ctor_owns_nothing (other f : Figure K) (h : other.owns_nothing)
    (hc : copy_ctor other = .ok f) : f.owns_nothing := by
  obtain ⟨points, num_points⟩ := other
  obtain ⟨h0, _⟩ := h
  simp only at h0
  subst h0
  simp [copy_ctor, make_unique, fill_loop] at hc
  subst hc
  exact ⟨rfl, Or.inr rfl⟩

theorem ngon_read_state (k : Kind) (what : String) (this : Figure K) (ps : List (Point K))
    (hk : k ≠ .rhombus) (hlen : ps.length = k.arity)
    (hthis : this.owns_nothing ∨ validator_invariant k this) :
    (ngon_read ps.length what this ps).1.owns_nothing
      ∨ validator_invariant k (ngon_read ps.length what this ps).1 := by
  rw [ngon_read_eq]
  by_cases hs : regular_ngon_spec ps
  · rw [if_pos hs]
    exact Or.inr ⟨hlen, ps, rfl, hlen, accepts_of_regular k ps hk hlen hs⟩
  · rw [if_neg hs]
    exact hthis

theorem test_rhombus_ctor :
    Rhombus.ctor (⟨1, 0⟩ : Point ℚ) ⟨0, 2⟩ ⟨-1, 0⟩ ⟨0, -2⟩ = .ok test_rhombus := by
  have hc : check_rhombus (⟨1, 0⟩ : Point ℚ) ⟨0, 2⟩ ⟨-1, 0⟩ ⟨0, -2⟩ = false := by
    norm_num [check_rhombus, eq, EPSILON]
  simp [Rhombus.ctor, hc, rhombus_store_eq, test_rhombus]

/-- C5, at concrete inputs: reading the test rhombus into an empty shape
commits it, and reading four collinear points into the test rhombus throws and
keeps it. -/
theorem C5_read_witness :
    Rhombus.read (Figure.empty : Figure ℚ) ⟨1, 0⟩ ⟨0, 2⟩ ⟨-1, 0⟩ ⟨0, -2⟩
        = (test_rhombus, .ok ())
    ∧ Rhombus.read test_rhombus ⟨1, 1⟩ ⟨2, 2⟩ ⟨3, 3⟩ ⟨4, 4⟩
        = (test_rhombus,
            .error (.invalid_argument "Error: Input points do not form a rhombus")) :=
  ⟨((C5_read_commits_or_keeps (Figure.empty : Figure ℚ)).1 ⟨1, 0⟩ ⟨0, 2⟩ ⟨-1, 0⟩ ⟨0, -2⟩).1
      (by norm_num [check_rhombus, eq, EPSILON]) |>.1,
   ((C5_read_commits_or_keeps test_rhombus).1 ⟨1, 1⟩ ⟨2, 2⟩ ⟨3, 3⟩ ⟨4, 4⟩).2
      (by norm_num [check_rhombus, eq, EPSILON])⟩

/-- C6, as stated, fails: the default constructor is a public operation and
the `Rhombus` it builds owns no point instead of four accepted ones. -/
theorem C6_default_ctor_not_valid :
    Obtainable Kind.rhombus (Figure.empty : Figure ℚ)
      ∧ ¬ validator_invariant Kind.rhombus (Figure.empty : Figure ℚ) :=
  ⟨Obtainable.default Kind.rhombus, fun h => by
    have h4 : (Figure.empty : Figure ℚ).num_points = 4 := h.1
    simp [Figure.empty] at h4⟩

/-- C6, amended: every shape value obtained through the default constructor,
the validating constructors, copy construction, as the object built by a move
construction, and `read`, in any sequence, either owns no point (count `0`) or
owns exactly 4, 5 or 6 points that the validator of its kind accepts. -/
theorem C6_obtainable_empty_or_valid (k : Kind) (f : Figure K) (h : Obtainable k f) :
    f.owns_nothing ∨ validator_invariant k f := by
  induction h with
  | default k => exact Or.inl ⟨rfl, Or.inl rfl⟩
  | rhombus_ctor a b c d f hf =>
    obtain ⟨rfl, hc⟩ := rhombus_ctor_ok a b c d f hf
    exact Or.inr ⟨rfl, [a, b, c, d], rfl, rfl, by simp [Kind.accepts, hc]⟩
  | pentagon_ctor p1 p2 p3 p4 p5 f hf =>
    have hc : ngon_ctor 5 _ [p1, p2, p3, p4, p5] = _ :=
      ngon_ctor_eq "Error: Points do not form a regular pentagon" [p1, p2, p3, p4, p5]
    unfold Pentagon.ctor at hf
    rw [hc] at hf
    by_cases hs : regular_ngon_spec [p1, p2, p3, p4, p5]
    · simp only [if_pos hs, Except.ok.injEq] at hf
      subst hf
      exact Or.inr ⟨rfl, _, rfl, rfl, accepts_of_regular .pentagon _ (by decide) rfl hs⟩
    · simp [if_neg hs] at hf
  | hexagon_ctor p1 p2 p3 p4 p5 p6 f hf =>
    have hc : ngon_ctor 6 _ [p1, p2, p3, p4, p5, p6] = _ :=
      ngon_ctor_eq "Error: Points do not form a regular hexagon" [p1, p2, p3, p4, p5, p6]
    unfold Hexagon.ctor at hf
    rw [hc] at hf
    by_cases hs : regular_ngon_spec [p1, p2, p3, p4, p5, p6]
    · simp only [if_pos hs, Except.ok.injEq] at hf
      subst hf
      exact Or.inr ⟨rfl, _, rfl, rfl, accepts_of_regular .hexagon _ (by decide) rfl hs⟩
    · simp [if_neg hs] at hf
  | copy k other f _ hc ih =>
    rcases ih with hempty | hinv
    · exact Or.inl (copy_ctor_owns_nothing other f hempty hc)
    · obtain ⟨points, num_points⟩ := other
      obtain ⟨hn, ps, hps, hlen, hacc⟩ := hinv
      simp only at hn hps
      subst hps
      rw [hn, ← hlen, copy_ctor_some] at hc
      simp only [Except.ok.injEq] at hc
      subst hc
      exact Or.inr ⟨hlen, ps, rfl, hlen, hacc⟩
  | move k other _ ih =>
    have hfst : (move_ctor other).1 = other := by simp [move_ctor]
    rw [hfst]; exact ih
  | rhombus_read this a b c d _ ih =>
    cases hc : check_rhombus a b c d with
    | true =>
      have : (Rhombus.read this a b c d).1 = this := by simp [Rhombus.read, hc]
      rw [this]; exact ih
    | false =>
      have : (Rhombus.read this a b c d).1 = ⟨some [a, b, c, d], 4⟩ := by
        simp [Rhombus.read, hc, rhombus_store_eq]
      rw [this]
      exact Or.inr ⟨rfl, [a, b, c, d], rfl, rfl, by simp [Kind.accepts, hc]⟩
  | pentagon_read this p1 p2 p3 p4 p5 _ ih =>
    exact ngon_read_state .pentagon _ this [p1, p2, p3, p4, p5] (by decide) rfl ih
  | hexagon_read this p1 p2 p3 p4 p5 p6 _ ih =>
    exact ngon_read_state .hexagon _ this [p1, p2, p3, p4, p5, p6] (by decide) rfl ih

/-- C6, amended, at the test rhombus, which the validating constructor builds. -/
theorem C6_obtainable_witness :
    Obtainable Kind.rhombus test_rhombus
      ∧ (test_rhombus.owns_nothing ∨ validator_invariant Kind.rhombus test_rhombus) :=
  ⟨Obtainable.rhombus_ctor _ _ _ _ _ test_rhombus_ctor,
   C6_obtainable_empty_or_valid Kind.rhombus test_rhombus
     (Obtainable.rhombus_ctor _ _ _ _ _ test_rhombus_ctor)⟩

/-- C7: move-constructing from the test rhombus gives the new object its four
points, but the source keeps `num_points = 4` with a null `points`, so it is
not empty and its area has no defined value. -/
theorem C7_move_source_keeps_count :
    Rhombus.ctor (⟨1, 0⟩ : Point ℚ) ⟨0, 2⟩ ⟨-1, 0⟩ ⟨0, -2⟩ = .ok test_rhombus
      ∧ (move_ctor test_rhombus).1 = test_rhombus
      ∧ (move_ctor test_rhombus).2.points = none
      ∧ (move_ctor test_rhombus).2.num_points = 4
      ∧ (move_ctor test_rhombus).2.operator_double = .error .undefined := by
  refine ⟨test_rhombus_ctor, ?_, ?_, ?_, ?_⟩ <;>
    simp [move_ctor, test_rhombus, Figure.operator_double, Figure.find_signed_area,
      Figure.signed_area_loop, Figure.at, read_at, bind, Except.bind]

theorem sum_range_succ_mod (f : ℕ → K) (n : ℕ) :
    ∑ i in Finset.range n, f ((i + 1) % n) = ∑ i in Finset.range n, f i := by
  cases n with
  | zero => simp
  | succ m =>
    rw [Finset.sum_range_succ, Finset.sum_range_succ', Nat.mod_self]
    congr 1
    refine Finset.sum_congr rfl (fun i hi => ?_)
    rw [Nat.mod_eq_of_lt (Nat.succ_lt_succ (Finset.mem_range.1 hi))]

theorem vertex_rotate_one (ps : List (Point K)) {i : ℕ} (hi : i < ps.length) :
    vertex (ps.rotate 1) i = vertex ps ((i + 1) % ps.length) := by
  have hr : i < (ps.rotate 1).length := by rw [List.length_rotate]; exact hi
  have hm := succ_mod_lt_length ps hi
  unfold vertex
  rw [List.getD_eq_getElem _ _ hr, List.getD_eq_getElem _ _ hm, List.getElem_rotate]

theorem cross_term_rotate_one (ps : List (Point K)) {i : ℕ} (hi : i < ps.length) :
    cross_term (ps.rotate 1) i = cross_term ps ((i + 1) % ps.length) := by
  have hm := succ_mod_lt_length ps hi
  unfold cross_term
  rw [List.length_rotate, vertex_rotate_one ps hi, vertex_rotate_one ps hm]

theorem signed_area_spec_rotate_one (ps : List (Point K)) :
    signed_area_spec (ps.rotate 1) = signed_area_spec ps := by
  unfold signed_area_spec
  rw [List.length_rotate]
  congr 2
  rw [← sum_range_succ_mod (fun i => cross_term ps i) ps.length]
  exact Finset.sum_congr rfl (fun i hi => cross_term_rotate_one ps (Finset.mem_range.1 hi))

theorem signed_area_spec_rotate (ps : List (Point K)) (k : ℕ) :
    signed_area_spec (ps.rotate k) = signed_area_spec ps := by
  induction k with
  | zero => rw [List.rotate_zero]
  | succ k ih => rw [← List.rotate_rotate, signed_area_spec_rotate_one, ih]

theorem operator_double_ofList (ps : List (Point K)) :
    (Figure.ofList ps).operator_double = .ok |signed_area_spec ps| := by
  simp only [Figure.operator_double, find_signed_area_ofList, bind, Except.bind]

/-- C8, amended: in exact arithmetic, for every point sequence (in particular
one of at least three vertices) and every `k`, the signed area and the area computed on the sequence
rotated by `k` positions are the values computed on the original sequence. -/
theorem C8_area_rotation_invariant (ps : List (Point K)) (k : ℕ) :
    ∃ S : K, (Figure.ofList ps).find_signed_area = .ok S
      ∧ (Figure.ofList (ps.rotate k)).find_signed_area = .ok S
      ∧ (Figure.ofList ps).operator_double = .ok |S|
      ∧ (Figure.ofList (ps.rotate k)).operator_double = .ok |S| := by
  refine ⟨signed_area_spec ps, find_signed_area_ofList ps, ?_, operator_double_ofList ps, ?_⟩
  · rw [find_signed_area_ofList, signed_area_spec_rotate]
  · rw [operator_double_ofList, signed_area_spec_rotate]

theorem vertex_reverse (ps : List (Point K)) {i : ℕ} (hi : i < ps.length) :
    vertex ps.reverse i = vertex ps (ps.length - 1 - i) := by
  have hr : i < ps.reverse.length := by rw [List.length_reverse]; exact hi
  have hm : ps.length - 1 - i < ps.length := by omega
  unfold vertex
  rw [List.getD_eq_getElem _ _ hr, List.getD_eq_getElem _ _ hm, List.getElem_reverse]

theorem cross_sum_reverse (ps : List (Point K)) :
    ∑ i in Finset.range ps.length, cross_term ps.reverse i
      = - ∑ i in Finset.range ps.length, cross_term ps i := by
  rcases Nat.eq_zero_or_pos ps.length with h0 | hpos
  · rw [h0]; simp
  · obtain ⟨m, hm⟩ : ∃ m, ps.length = m + 1 := ⟨ps.length - 1, by omega⟩
    have hlast : cross_term ps.reverse m = - cross_term ps m := by
      have h0 : 0 < ps.length := hpos
      have hmm : m < ps.length := by omega
      unfold cross_term
      rw [List.length_reverse, hm, Nat.mod_self, vertex_reverse ps hmm,
        vertex_reverse ps h0, hm]
      have e1 : m + 1 - 1 - m = 0 := by omega
      have e2 : m + 1 - 1 - 0 = m := by omega
      rw [e1, e2]
      ring
    have hrest : ∀ i, i < m → cross_term ps.reverse i = - cross_term ps (m - 1 - i) := by
      intro i hi
      have hi1 : i < ps.length := by omega
      have hi2 : i + 1 < ps.length := by omega
      unfold cross_term
      rw [List.length_reverse, hm, Nat.mod_eq_of_lt (by omega : i + 1 < m + 1),
        Nat.mod_eq_of_lt (by omega : m - 1 - i + 1 < m + 1),
        vertex_reverse ps hi1, vertex_reverse ps hi2, hm]
      have e1 : m + 1 - 1 - i = m - 1 - i + 1 := by omega
      have e2 : m + 1 - 1 - (i + 1) = m - 1 - i := by omega
      rw [e1, e2]
      ring
    rw [hm, Finset.sum_range_succ, Finset.sum_range_succ, hlast,
      Finset.sum_congr rfl (fun i hi => hrest i (Finset.mem_range.1 hi)),
      Finset.sum_neg_distrib, Finset.sum_range_reflect (fun j => cross_term ps j) m]
    ring

theorem signed_area_spec_reverse (ps : List (Point K)) :
    signed_area_spec ps.reverse = - signed_area_spec ps := by
  unfold signed_area_spec
  rw [List.length_reverse]
  split
  · simp
  · rw [cross_sum_reverse]; ring

/-- C9, amended: in exact arithmetic, for every point sequence, the signed area of
the reversed sequence is the negation of the signed area of the original, and
the area returned by `operator double` is the same for both. -/
theorem C9_reversal_negates_signed_area (ps : List (Point K)) :
    ∃ S : K, (Figure.ofList ps).find_signed_area = .ok S
      ∧ (Figure.ofList ps.reverse).find_signed_area = .ok (-S)
      ∧ (Figure.ofList ps.reverse).operator_double = (Figure.ofList ps).operator_double
      ∧ (Figure.ofList ps).operator_double = .ok |S| := by
  refine ⟨signed_area_spec ps, find_signed_area_ofList ps, ?_, ?_, operator_double_ofList ps⟩
  · rw [find_signed_area_ofList, signed_area_spec_reverse]
  · rw [operator_double_ofList, operator_double_ofList, signed_area_spec_reverse, abs_neg]

theorem diagonals_parallel_of_on_one_line (a b c d : Point K) (h : on_one_line a b c d) :
    (c.x - a.x) * (d.y - b.y) - (c.y - a.y) * (d.x - b.x) = 0 := by
  obtain ⟨u, v, w, huv, ha, hb, hc, hd⟩ := h
  have h1 : u * (c.x - a.x) + v * (c.y - a.y) = 0 := by linear_combination hc - ha
  have h2 : u * (d.x - b.x) + v * (d.y - b.y) = 0 := by linear_combination hd - hb
  rcases huv with hu | hv
  · have : u * ((c.x - a.x) * (d.y - b.y) - (c.y - a.y) * (d.x - b.x)) = 0 := by
      linear_combination (d.y - b.y) * h1 - (c.y - a.y) * h2
    exact (mul_eq_zero.1 this).resolve_left hu
  · have : v * ((c.x - a.x) * (d.y - b.y) - (c.y - a.y) * (d.x - b.x)) = 0 := by
      linear_combination (c.x - a.x) * h2 - (d.x - b.x) * h1
    exact (mul_eq_zero.1 this).resolve_left hv

theorem check_rhombus_of_on_one_line (a b c d : Point K) (h : on_one_line a b c d) :
    check_rhombus a b c d = true := by
  have hcross := diagonals_parallel_of_on_one_line a b c d h
  cases hc : check_rhombus a b c d with
  | true => rfl
  | false =>
    exfalso
    obtain ⟨_, hdot, hl1, hl2⟩ := (check_rhombus_eq_false_iff a b c d).1 hc
    have heps : (0 : K) < 1 / 10 ^ 9 := by positivity
    rw [sub_zero, abs_of_nonneg (by positivity), not_lt] at hl1 hl2
    have hdot' := abs_lt.1 hdot
    have hsq : ((c.x - a.x) * (d.x - b.x) + (c.y - a.y) * (d.y - b.y)) ^ 2
        < (1 / 10 ^ 9) ^ 2 := by
      apply sq_lt_sq'
      · exact hdot'.1
      · exact hdot'.2
    have hid : ((c.x - a.x) * (d.x - b.x) + (c.y - a.y) * (d.y - b.y)) ^ 2
        = ((c.x - a.x) ^ 2 + (c.y - a.y) ^ 2) * ((d.x - b.x) ^ 2 + (d.y - b.y) ^ 2) := by
      linear_combination
        (- ((c.x - a.x) * (d.y - b.y) - (c.y - a.y) * (d.x - b.x))) * hcross
    have hprod : (1 / 10 ^ 9 : K) ^ 2
        ≤ ((c.x - a.x) ^ 2 + (c.y - a.y) ^ 2) * ((d.x - b.x) ^ 2 + (d.y - b.y) ^ 2) := by
      rw [pow_two]
      exact mul_le_mul hl1 hl2 (le_of_lt heps) (le_trans (le_of_lt heps) hl1)
    rw [hid] at hsq
    exact absurd hsq (not_lt.2 hprod)

/-- C10: for every four points on one straight line (four coincident points
included), `check_rhombus` reports "not a rhombus", so `Rhombus(a,b,c,d)` throws
`std::invalid_argument` and `Rhombus::read` of them throws and leaves the shape
as it was. -/
theorem C10_collinear_rejected (a b c d : Point K) (h : on_one_line a b c d) :
    check_rhombus a b c d = true
      ∧ Rhombus.ctor a b c d = .error (.invalid_argument "Error: Rhombus is not defined")
      ∧ ∀ s : Figure K, Rhombus.read s a b c d
          = (s, .error (.invalid_argument "Error: Input points do not form a rhombus")) := by
  have hc := check_rhombus_of_on_one_line a b c d h
  refine ⟨hc, ?_, ?_⟩
  · simp [Rhombus.ctor, hc]
  · intro s
    simp [Rhombus.read, hc]

/-- C10 at the two inputs of the test suite: `(1,1), (2,2), (3,3), (4,4)` on
the line `x - y = 0`, and `(1,0)` four times on the line `x = 1`. -/
theorem C10_collinear_witness :
    (on_one_line (⟨1, 1⟩ : Point ℚ) ⟨2, 2⟩ ⟨3, 3⟩ ⟨4, 4⟩
      ∧ check_rhombus (⟨1, 1⟩ : Point ℚ) ⟨2, 2⟩ ⟨3, 3⟩ ⟨4, 4⟩ = true
      ∧ Rhombus.ctor (⟨1, 1⟩ : Point ℚ) ⟨2, 2⟩ ⟨3, 3⟩ ⟨4, 4⟩
          = .error (.invalid_argument "Error: Rhombus is not defined")
      ∧ ∀ s : Figure ℚ, Rhombus.read s ⟨1, 1⟩ ⟨2, 2⟩ ⟨3, 3⟩ ⟨4, 4⟩
          = (s, .error (.invalid_argument "Error: Input points do not form a rhombus")))
    ∧ (on_one_line (⟨1, 0⟩ : Point ℚ) ⟨1, 0⟩ ⟨1, 0⟩ ⟨1, 0⟩
      ∧ check_rhombus (⟨1, 0⟩ : Point ℚ) ⟨1, 0⟩ ⟨1, 0⟩ ⟨1, 0⟩ = true
      ∧ Rhombus.ctor (⟨1, 0⟩ : Point ℚ) ⟨1, 0⟩ ⟨1, 0⟩ ⟨1, 0⟩
          = .error (.invalid_argument "Error: Rhombus is not defined")
      ∧ ∀ s : Figure ℚ, Rhombus.read s ⟨1, 0⟩ ⟨1, 0⟩ ⟨1, 0⟩ ⟨1, 0⟩
          = (s, .error (.invalid_argument "Error: Input points do not form a rhombus"))) :=
  ⟨⟨⟨1, -1, 0, Or.inl (by norm_num), by norm_num, by norm_num, by norm_num, by norm_num⟩,
      C10_collinear_rejected _ _ _ _
        ⟨1, -1, 0, Or.inl (by norm_num), by norm_num, by norm_num, by norm_num, by norm_num⟩⟩,
   ⟨⟨1, 0, 1, Or.inl (by norm_num), by norm_num, by norm_num, by norm_num, by norm_num⟩,
      C10_collinear_rejected _ _ _ _
        ⟨1, 0, 1, Or.inl (by norm_num), by norm_num, by norm_num, by norm_num, by norm_num⟩⟩⟩

theorem find_center_ofList_of_three_le (ps : List (Point K)) (h : 3 ≤ ps.length) :
    (Figure.ofList ps).find_center
      = .ok (if |signed_area_spec ps| < 1 / 10 ^ 9 then mean_spec ps
             else weighted_spec ps (signed_area_spec ps)) := by
  have hn : (Figure.ofList ps).num_points = ps.length := rfl
  have h0 : ps.length ≠ 0 := by omega
  have h1 : ps.length ≠ 1 := by omega
  have h2 : ps.length ≠ 2 := by omega
  unfold Figure.find_center
  rw [hn, if_neg h0, if_neg h1, if_neg h2]
  simp only [find_signed_area_ofList, bind, Except.bind]
  by_cases hS : |signed_area_spec ps| < 1 / 10 ^ 9
  · rw [if_pos ((eq_zero_iff _).2 hS), if_pos hS]
    simp only [total_loop_ofList _ _ (Nat.le_refl _), mean_spec]
  · rw [if_neg (fun h => hS ((eq_zero_iff _).1 h)), if_neg hS]
    simp only [center_loop_ofList _ _ (Nat.le_refl _), weighted_spec]
    congr 1
    congr 1 <;> rw [div_eq_mul_inv, one_div, mul_comm]

theorem vertex_mem (ps : List (Point K)) {i : ℕ} (hi : i < ps.length) : vertex ps i ∈ ps := by
  unfold vertex
  rw [List.getD_eq_getElem _ _ hi]
  exact List.getElem_mem hi

theorem cross_sum_of_collinear (ps : List (Point K)) (h : collinear ps) :
    ∑ i in Finset.range ps.length, cross_term ps i = 0 := by
  obtain ⟨u, v, w, huv, hline⟩ := h
  have hterm : ∀ i, i < ps.length →
      u * cross_term ps i
          = w * ((vertex ps ((i + 1) % ps.length)).y - (vertex ps i).y)
      ∧ v * cross_term ps i
          = w * ((vertex ps i).x - (vertex ps ((i + 1) % ps.length)).x) := by
    intro i hi
    have hi' := hline _ (vertex_mem ps hi)
    have hj' := hline _ (vertex_mem ps (succ_mod_lt_length ps hi))
    unfold cross_term
    constructor
    · linear_combination (vertex ps ((i + 1) % ps.length)).y * hi' - (vertex ps i).y * hj'
    · linear_combination (vertex ps i).x * hj' - (vertex ps ((i + 1) % ps.length)).x * hi'
  have hu : u * ∑ i in Finset.range ps.length, cross_term ps i = 0 := by
    rw [Finset.mul_sum,
      Finset.sum_congr rfl (fun i hi => (hterm i (Finset.mem_range.1 hi)).1),
      ← Finset.mul_sum, Finset.sum_sub_distrib,
      sum_range_succ_mod (fun i => (vertex ps i).y) ps.length, sub_self, mul_zero]
  have hv : v * ∑ i in Finset.range ps.length, cross_term ps i = 0 := by
    rw [Finset.mul_sum,
      Finset.sum_congr rfl (fun i hi => (hterm i (Finset.mem_range.1 hi)).2),
      ← Finset.mul_sum, Finset.sum_sub_distrib,
      sum_range_succ_mod (fun i => (vertex ps i).x) ps.length, sub_self, mul_zero]
  rcases huv with hu0 | hv0
  · exact (mul_eq_zero.1 hu).resolve_left hu0
  · exact (mul_eq_zero.1 hv).resolve_left hv0

theorem signed_area_spec_of_collinear (ps : List (Point K)) (h : collinear ps) :
    signed_area_spec ps = 0 := by
  unfold signed_area_spec
  split
  · rfl
  · rw [cross_sum_of_collinear ps h, mul_zero]

/-- C11, amended: in exact arithmetic, for every sequence of at least three
collinear points the signed area
is `0`, so `find_center` takes the branch guarded by `eq(signedArea, 0.0)` and
returns the arithmetic mean of the vertices. -/
theorem C11_collinear_center_is_mean (ps : List (Point K)) (hn : 3 ≤ ps.length)
    (h : collinear ps) :
    (Figure.ofList ps).find_signed_area = .ok 0
      ∧ eq (0 : K) 0 = true
      ∧ (Figure.ofList ps).find_center
          = .ok ⟨(∑ i in Finset.range ps.length, (vertex ps i).x) / (ps.length : K),
                 (∑ i in Finset.range ps.length, (vertex ps i).y) / (ps.length : K)⟩ := by
  have hS := signed_area_spec_of_collinear ps h
  refine ⟨by rw [find_signed_area_ofList, hS], eq_self 0, ?_⟩
  rw [find_center_ofList_of_three_le ps hn, hS, abs_zero, if_pos (by positivity)]
  rfl

/-- C11 at three collinear points, `(0,0), (1,1), (5,5)`, whose mean is `(2,2)`. -/
theorem C11_collinear_witness :
    (3 ≤ ([⟨0, 0⟩, ⟨1, 1⟩, ⟨5, 5⟩] : List (Point ℚ)).length
      ∧ collinear ([⟨0, 0⟩, ⟨1, 1⟩, ⟨5, 5⟩] : List (Point ℚ)))
    ∧ (Figure.ofList ([⟨0, 0⟩, ⟨1, 1⟩, ⟨5, 5⟩] : List (Point ℚ))).find_center
        = .ok ⟨2, 2⟩ := by
  have hc : collinear ([⟨0, 0⟩, ⟨1, 1⟩, ⟨5, 5⟩] : List (Point ℚ)) :=
    ⟨1, -1, 0, Or.inl (by norm_num), by
      intro p hp
      simp only [List.mem_cons, List.mem_singleton, List.not_mem_nil, or_false] at hp
      rcases hp with rfl | rfl | rfl <;> norm_num⟩
  refine ⟨⟨by decide, hc⟩, ?_⟩
  rw [(C11_collinear_center_is_mean _ (by decide) hc).2.2]
  norm_num [vertex, Finset.sum_range_succ]

theorem signed_area_spec_quad (a b c d : Point K) :
    signed_area_spec [a, b, c, d]
      = (1 / 2) * ((c.x - a.x) * (d.y - b.y) - (c.y - a.y) * (d.x - b.x)) := by
  simp [signed_area_spec, cross_term, vertex, Finset.sum_range_succ]
  ring

/-- C12, amended: in exact arithmetic, a rhombus that the constructor accepts has,
as its area, half the absolute value of the cross product of its diagonals;
the two rhombi of the test suite are accepted and have area exactly `4`. -/
theorem C12_rhombus_area_half_cross :
    (∀ a b c d : Point K, check_rhombus a b c d = false →
      ∃ f : Figure K, Rhombus.ctor a b c d = .ok f
        ∧ f.operator_double
            = .ok ((1 / 2) * |(c.x - a.x) * (d.y - b.y) - (c.y - a.y) * (d.x - b.x)|))
    ∧ (∃ f : Figure K, Rhombus.ctor ⟨1, 0⟩ ⟨0, 2⟩ ⟨-1, 0⟩ ⟨0, -2⟩ = .ok f
        ∧ f.operator_double = .ok 4)
    ∧ (∃ f : Figure K, Rhombus.ctor ⟨2, 0⟩ ⟨0, 1⟩ ⟨-2, 0⟩ ⟨0, -1⟩ = .ok f
        ∧ f.operator_double = .ok 4) := by
  have hgen : ∀ a b c d : Point K, check_rhombus a b c d = false →
      ∃ f : Figure K, Rhombus.ctor a b c d = .ok f
        ∧ f.operator_double
            = .ok ((1 / 2) * |(c.x - a.x) * (d.y - b.y) - (c.y - a.y) * (d.x - b.x)|) := by
    intro a b c d hc
    refine ⟨Figure.ofList [a, b, c, d], ?_, ?_⟩
    · simp [Rhombus.ctor, hc, rhombus_store_eq, Figure.ofList]
    · rw [operator_double_ofList, signed_area_spec_quad, abs_mul,
        abs_of_pos (by norm_num : (0 : K) < 1 / 2)]
  refine ⟨hgen, ?_, ?_⟩
  · obtain ⟨f, hf, ha⟩ := hgen ⟨1, 0⟩ ⟨0, 2⟩ ⟨-1, 0⟩ ⟨0, -2⟩
      (by norm_num [check_rhombus, eq, EPSILON])
    refine ⟨f, hf, ?_⟩
    rw [ha]
    norm_num
  · obtain ⟨f, hf, ha⟩ := hgen ⟨2, 0⟩ ⟨0, 1⟩ ⟨-2, 0⟩ ⟨0, -1⟩
      (by norm_num [check_rhombus, eq, EPSILON])
    refine ⟨f, hf, ?_⟩
    rw [ha]
    norm_num

theorem weighted_quotient_eq (S N t : K) (hS : S ≠ 0) (h : N = 6 * S * t) :
    1 / (6 * S) * N = t := by
  rw [h]; field_simp

theorem center_spec_parallelogram (a b c d : Point K) (hx : a.x + c.x = b.x + d.x)
    (hy : a.y + c.y = b.y + d.y) :
    (if |signed_area_spec [a, b, c, d]| < 1 / 10 ^ 9 then mean_spec [a, b, c, d]
      else weighted_spec [a, b, c, d] (signed_area_spec [a, b, c, d]))
      = ⟨(a.x + c.x) / 2, (a.y + c.y) / 2⟩ := by
  obtain ⟨ax, ay⟩ := a
  obtain ⟨bx, by'⟩ := b
  obtain ⟨cx, cy⟩ := c
  obtain ⟨dx, dy⟩ := d
  simp only at hx hy
  have hdx : dx = ax + cx - bx := by linear_combination -hx
  have hdy : dy = ay + cy - by' := by linear_combination -hy
  subst hdx hdy
  by_cases hS : |signed_area_spec [⟨ax, ay⟩, ⟨bx, by'⟩, ⟨cx, cy⟩,
      (⟨ax + cx - bx, ay + cy - by'⟩ : Point K)]| < 1 / 10 ^ 9
  · rw [if_pos hS]
    simp [mean_spec, vertex, Finset.sum_range_succ]
    constructor <;> ring
  · rw [if_neg hS]
    have hne : signed_area_spec [⟨ax, ay⟩, ⟨bx, by'⟩, ⟨cx, cy⟩,
        (⟨ax + cx - bx, ay + cy - by'⟩ : Point K)] ≠ 0 := by
      intro h0
      apply hS
      rw [h0, abs_zero]
      positivity
    unfold weighted_spec
    refine congrArg₂ Point.mk (weighted_quotient_eq _ _ _ hne ?_)
      (weighted_quotient_eq _ _ _ hne ?_)
    · rw [signed_area_spec_quad]
      simp [cross_term, vertex, Finset.sum_range_succ]
      ring
    · rw [signed_area_spec_quad]
      simp [cross_term, vertex, Finset.sum_range_succ]
      ring

/-- C13, amended: in exact arithmetic, a rhombus that the constructor accepts and
whose diagonals bisect each other exactly (`a + c = b + d`) has, as the value
of `find_center`, the common midpoint of the diagonals, in either branch of
`find_center`; for the test rhombus it is `(0,0)`. -/
theorem C13_rhombus_center_is_midpoint :
    (∀ a b c d : Point K, check_rhombus a b c d = false →
      a.x + c.x = b.x + d.x → a.y + c.y = b.y + d.y →
      ∃ f : Figure K, Rhombus.ctor a b c d = .ok f
        ∧ f.find_center = .ok ⟨(a.x + c.x) / 2, (a.y + c.y) / 2⟩)
    ∧ (∃ f : Figure K, Rhombus.ctor ⟨1, 0⟩ ⟨0, 2⟩ ⟨-1, 0⟩ ⟨0, -2⟩ = .ok f
        ∧ f.find_center = .ok ⟨0, 0⟩) := by
  have hgen : ∀ a b c d : Point K, check_rhombus a b c d = false →
      a.x + c.x = b.x + d.x → a.y + c.y = b.y + d.y →
      ∃ f : Figure K, Rhombus.ctor a b c d = .ok f
        ∧ f.find_center = .ok ⟨(a.x + c.x) / 2, (a.y + c.y) / 2⟩ := by
    intro a b c d hc hx hy
    refine ⟨Figure.ofList [a, b, c, d], ?_, ?_⟩
    · simp [Rhombus.ctor, hc, rhombus_store_eq, Figure.ofList]
    · rw [find_center_ofList_of_three_le [a, b, c, d] (by simp),
        center_spec_parallelogram a b c d hx hy]
  refine ⟨hgen, ?_⟩
  obtain ⟨f, hf, hcen⟩ := hgen ⟨1, 0⟩ ⟨0, 2⟩ ⟨-1, 0⟩ ⟨0, -2⟩
    (by norm_num [check_rhombus, eq, EPSILON]) (by norm_num) (by norm_num)
  refine ⟨f, hf, ?_⟩
  rw [hcen]
  norm_num

theorem center_spec_triangle (p0 p1 p2 : Point K) :
    (if |signed_area_spec [p0, p1, p2]| < 1 / 10 ^ 9 then mean_spec [p0, p1, p2]
      else weighted_spec [p0, p1, p2] (signed_area_spec [p0, p1, p2]))
      = ⟨(p0.x + p1.x + p2.x) / 3, (p0.y + p1.y + p2.y) / 3⟩ := by
  obtain ⟨x0, y0⟩ := p0
  obtain ⟨x1, y1⟩ := p1
  obtain ⟨x2, y2⟩ := p2
  have hS : signed_area_spec [⟨x0, y0⟩, ⟨x1, y1⟩, (⟨x2, y2⟩ : Point K)]
      = (1 / 2) * (x0 * y1 - x1 * y0 + (x1 * y2 - x2 * y1) + (x2 * y0 - x0 * y2)) := by
    simp [signed_area_spec, cross_term, vertex, Finset.sum_range_succ]
    ring
  by_cases h : |signed_area_spec [⟨x0, y0⟩, ⟨x1, y1⟩, (⟨x2, y2⟩ : Point K)]| < 1 / 10 ^ 9
  · rw [if_pos h]
    simp [mean_spec, vertex, Finset.sum_range_succ]
  · rw [if_neg h]
    have hne : signed_area_spec [⟨x0, y0⟩, ⟨x1, y1⟩, (⟨x2, y2⟩ : Point K)] ≠ 0 := by
      intro h0
      apply h
      rw [h0, abs_zero]
      positivity
    unfold weighted_spec
    refine congrArg₂ Point.mk (weighted_quotient_eq _ _ _ hne ?_)
      (weighted_quotient_eq _ _ _ hne ?_)
    · rw [hS]
      simp [cross_term, vertex, Finset.sum_range_succ]
      ring
    · rw [hS]
      simp [cross_term, vertex, Finset.sum_range_succ]
      ring

/-- C20: for every three points `find_center` returns their arithmetic mean,
in the area-weighted branch as in the degenerate one. -/
theorem C20_triangle_center_is_mean (p0 p1 p2 : Point K) :
    (Figure.ofList [p0, p1, p2]).find_center
      = .ok ⟨(p0.x + p1.x + p2.x) / 3, (p0.y + p1.y + p2.y) / 3⟩ := by
  rw [find_center_ofList_of_three_le [p0, p1, p2] (by simp), center_spec_triangle]

theorem check_rhombus_of_midpoints_far (a b c d : Point K)
    (h : 1 / 10 ^ 9 ≤ |(a.x + c.x) / 2 - (b.x + d.x) / 2|
        ∨ 1 / 10 ^ 9 ≤ |(a.y + c.y) / 2 - (b.y + d.y) / 2|) :
    check_rhombus a b c d = true := by
  cases hc : check_rhombus a b c d with
  | true => rfl
  | false =>
    exfalso
    obtain ⟨⟨hx, hy⟩, _⟩ := (check_rhombus_eq_false_iff a b c d).1 hc
    rcases h with h | h
    · exact absurd hx (not_lt.2 h)
    · exact absurd hy (not_lt.2 h)

theorem midpoints_far_of_moved (m s t s' : K) (h : |m - (s + t) / 2| < 1 / 10 ^ 9)
    (hmove : 4 / 10 ^ 9 ≤ |s' - s|) : 1 / 10 ^ 9 ≤ |m - (s' + t) / 2| := by
  have h1 := abs_lt.1 h
  rcases le_abs.1 hmove with hm | hm
  · refine le_abs.2 (Or.inr ?_)
    linarith [h1.1, h1.2]
  · refine le_abs.2 (Or.inl ?_)
    linarith [h1.1, h1.2]

/-- C16, amended: in exact arithmetic, when `Rhombus(a,b,c,d)` is accepted and
exactly one vertex is replaced by a point `v` that differs from it by at least
`4e-9` in `x` or in `y`, the constructor on the modified points throws
`std::invalid_argument`. -/
theorem C16_moved_vertex_rejected (a b c d v : Point K)
    (h : check_rhombus a b c d = false) :
    ((4 / 10 ^ 9 ≤ |v.x - a.x| ∨ 4 / 10 ^ 9 ≤ |v.y - a.y|) →
        Rhombus.ctor v b c d = .error (.invalid_argument "Error: Rhombus is not defined"))
    ∧ ((4 / 10 ^ 9 ≤ |v.x - b.x| ∨ 4 / 10 ^ 9 ≤ |v.y - b.y|) →
        Rhombus.ctor a v c d = .error (.invalid_argument "Error: Rhombus is not defined"))
    ∧ ((4 / 10 ^ 9 ≤ |v.x - c.x| ∨ 4 / 10 ^ 9 ≤ |v.y - c.y|) →
        Rhombus.ctor a b v d = .error (.invalid_argument "Error: Rhombus is not defined"))
    ∧ ((4 / 10 ^ 9 ≤ |v.x - d.x| ∨ 4 / 10 ^ 9 ≤ |v.y - d.y|) →
        Rhombus.ctor a b c v
          = .error (.invalid_argument "Error: Rhombus is not defined")) := by
  obtain ⟨⟨hx, hy⟩, _⟩ := (check_rhombus_eq_false_iff a b c d).1 h
  have hx' : |(b.x + d.x) / 2 - (a.x + c.x) / 2| < 1 / 10 ^ 9 := by rw [abs_sub_comm]; exact hx
  have hy' : |(b.y + d.y) / 2 - (a.y + c.y) / 2| < 1 / 10 ^ 9 := by rw [abs_sub_comm]; exact hy
  have hthrow : ∀ p q r t : Point K, check_rhombus p q r t = true →
      Rhombus.ctor p q r t = .error (.invalid_argument "Error: Rhombus is not defined") := by
    intro p q r t hc
    simp [Rhombus.ctor, hc]
  refine ⟨?_, ?_, ?_, ?_⟩
  · intro hv
    apply hthrow
    apply check_rhombus_of_midpoints_far
    rcases hv with hv | hv
    · left
      rw [abs_sub_comm]
      exact midpoints_far_of_moved _ a.x c.x v.x hx' hv
    · right
      rw [abs_sub_comm]
      exact midpoints_far_of_moved _ a.y c.y v.y hy' hv
  · intro hv
    apply hthrow
    apply check_rhombus_of_midpoints_far
    rcases hv with hv | hv
    · left
      exact midpoints_far_of_moved _ b.x d.x v.x hx hv
    · right
      exact midpoints_far_of_moved _ b.y d.y v.y hy hv
  · intro hv
    apply hthrow
    apply check_rhombus_of_midpoints_far
    rcases hv with hv | hv
    · left
      rw [abs_sub_comm, add_comm a.x]
      rw [add_comm a.x] at hx'
      exact midpoints_far_of_moved _ c.x a.x v.x hx' hv
    · right
      rw [abs_sub_comm, add_comm a.y]
      rw [add_comm a.y] at hy'
      exact midpoints_far_of_moved _ c.y a.y v.y hy' hv
  · intro hv
    apply hthrow
    apply check_rhombus_of_midpoints_far
    rcases hv with hv | hv
    · left
      rw [add_comm b.x]
      rw [add_comm b.x] at hx
      exact midpoints_far_of_moved _ d.x b.x v.x hx hv
    · right
      rw [add_comm b.y]
      rw [add_comm b.y] at hy
      exact midpoints_far_of_moved _ d.y b.y v.y hy hv

/-- C16 at the test rhombus with its fourth vertex replaced by `(10,10)`. -/
theorem C16_moved_vertex_witness :
    check_rhombus (⟨1, 0⟩ : Point ℚ) ⟨0, 2⟩ ⟨-1, 0⟩ ⟨0, -2⟩ = false
      ∧ Rhombus.ctor (⟨1, 0⟩ : Point ℚ) ⟨0, 2⟩ ⟨-1, 0⟩ ⟨10, 10⟩
          = .error (.invalid_argument "Error: Rhombus is not defined") :=
  ⟨by norm_num [check_rhombus, eq, EPSILON],
   (C16_moved_vertex_rejected (⟨1, 0⟩ : Point ℚ) ⟨0, 2⟩ ⟨-1, 0⟩ ⟨0, -2⟩ ⟨10, 10⟩
      (by norm_num [check_rhombus, eq, EPSILON])).2.2.2 (Or.inl (by norm_num [abs_of_pos]))⟩

/-- C17: with `ε = 1e-9`, `eq(a,b)` holds iff `|a-b| < ε`, `less(a,b)` iff
`b-a > ε`, `greater(a,b)` iff `a-b > ε`; no two of them hold together, and none
of them holds exactly when `|a-b| = ε`. -/
theorem C17_tolerance_relations (a b : K) :
    (eq a b = true ↔ |a - b| < 1 / 10 ^ 9)
    ∧ (less a b = true ↔ b - a > 1 / 10 ^ 9)
    ∧ (greater a b = true ↔ a - b > 1 / 10 ^ 9)
    ∧ ¬ (eq a b = true ∧ less a b = true)
    ∧ ¬ (eq a b = true ∧ greater a b = true)
    ∧ ¬ (less a b = true ∧ greater a b = true)
    ∧ ((eq a b = false ∧ less a b = false ∧ greater a b = false)
        ↔ |a - b| = 1 / 10 ^ 9) := by
  have heps : (0 : K) < 1 / 10 ^ 9 := by positivity
  have he : eq a b = true ↔ |a - b| < 1 / 10 ^ 9 := eq_iff a b
  have hl : less a b = true ↔ b - a > 1 / 10 ^ 9 := by simp [less, EPSILON]
  have hg : greater a b = true ↔ a - b > 1 / 10 ^ 9 := by simp [greater, EPSILON]
  refine ⟨he, hl, hg, ?_, ?_, ?_, ?_⟩
  · rintro ⟨h1, h2⟩
    have h1' := abs_lt.1 (he.1 h1)
    have h2' := hl.1 h2
    linarith [h1'.1, h1'.2]
  · rintro ⟨h1, h2⟩
    have h1' := abs_lt.1 (he.1 h1)
    have h2' := hg.1 h2
    linarith [h1'.1, h1'.2]
  · rintro ⟨h1, h2⟩
    have h1' := hl.1 h1
    have h2' := hg.1 h2
    linarith
  · rw [← Bool.not_eq_true, ← Bool.not_eq_true, ← Bool.not_eq_true, he, hl, hg]
    constructor
    · rintro ⟨h1, h2, h3⟩
      apply le_antisymm
      · apply abs_le.2
        constructor <;> linarith [not_lt.1 h2, not_lt.1 h3]
      · exact not_lt.1 h1
    · intro h
      refine ⟨by rw [h]; exact lt_irrefl _, ?_, ?_⟩
      · have := abs_le.1 (le_of_eq h)
        apply not_lt.2
        linarith [this.1, this.2]
      · have := abs_le.1 (le_of_eq h)
        apply not_lt.2
        linarith [this.1, this.2]

theorem lt_six_cases {i : ℕ} (hi : i < 6) :
    i = 0 ∨ i = 1 ∨ i = 2 ∨ i = 3 ∨ i = 4 ∨ i = 5 := by omega

theorem alternating_hexagon_regular :
    regular_ngon_spec ([⟨0, 0⟩, ⟨1, 0⟩, ⟨0, 0⟩, ⟨1, 0⟩, ⟨0, 0⟩, ⟨1, 0⟩] : List (Point K)) := by
  refine ⟨by simp, ?_, ?_⟩
  · intro i hi
    rcases lt_six_cases hi with rfl | rfl | rfl | rfl | rfl | rfl <;>
      norm_num [sq_dist, vertex, mean_spec, Finset.sum_range_succ]
  · intro i hi
    rcases lt_six_cases hi with rfl | rfl | rfl | rfl | rfl | rfl <;>
      norm_num [sq_dist, vertex]

/-- C18: the regular-n-gon criterion accepts point sequences that are not
convex polygons: the six points alternating between `A = (0,0)` and
`B = (1,0)`, two distinct locations on one line, are accepted by the Hexagon
constructor, and the hexagon built has area `0`. -/
theorem C18_alternating_hexagon_accepted :
    check_regular_ngon ([⟨0, 0⟩, ⟨1, 0⟩, ⟨0, 0⟩, ⟨1, 0⟩, ⟨0, 0⟩, ⟨1, 0⟩] : List (Point K)) 6
        = .ok true
      ∧ (∃ f : Figure K, Hexagon.ctor ⟨0, 0⟩ ⟨1, 0⟩ ⟨0, 0⟩ ⟨1, 0⟩ ⟨0, 0⟩ ⟨1, 0⟩ = .ok f
          ∧ f.points = some [⟨0, 0⟩, ⟨1, 0⟩, ⟨0, 0⟩, ⟨1, 0⟩, ⟨0, 0⟩, ⟨1, 0⟩]
          ∧ f.operator_double = .ok 0)
      ∧ (⟨0, 0⟩ : Point K) ≠ ⟨1, 0⟩
      ∧ collinear ([⟨0, 0⟩, ⟨1, 0⟩, ⟨0, 0⟩, ⟨1, 0⟩, ⟨0, 0⟩, ⟨1, 0⟩] : List (Point K)) := by
  have hreg := alternating_hexagon_regular (K := K)
  have hcheck : check_regular_ngon
      ([⟨0, 0⟩, ⟨1, 0⟩, ⟨0, 0⟩, ⟨1, 0⟩, ⟨0, 0⟩, ⟨1, 0⟩] : List (Point K)) 6 = .ok true := by
    have h := check_regular_ngon_eq
      ([⟨0, 0⟩, ⟨1, 0⟩, ⟨0, 0⟩, ⟨1, 0⟩, ⟨0, 0⟩, ⟨1, 0⟩] : List (Point K))
    rw [decide_eq_true hreg] at h
    exact h
  have hc : ngon_ctor 6 "Error: Points do not form a regular hexagon"
      ([⟨0, 0⟩, ⟨1, 0⟩, ⟨0, 0⟩, ⟨1, 0⟩, ⟨0, 0⟩, ⟨1, 0⟩] : List (Point K)) = _ :=
    ngon_ctor_eq "Error: Points do not form a regular hexagon" _
  rw [if_pos hreg] at hc
  have hcol : collinear ([⟨0, 0⟩, ⟨1, 0⟩, ⟨0, 0⟩, ⟨1, 0⟩, ⟨0, 0⟩, ⟨1, 0⟩] : List (Point K)) :=
    ⟨0, 1, 0, Or.inr one_ne_zero, by
      intro p hp
      simp only [List.mem_cons, List.mem_singleton, List.not_mem_nil, or_false] at hp
      rcases hp with rfl | rfl | rfl | rfl | rfl | rfl <;> simp⟩
  refine ⟨hcheck, ⟨_, hc, rfl, ?_⟩, ?_, hcol⟩
  · rw [operator_double_ofList, signed_area_spec_of_collinear _ hcol, abs_zero]
  · intro h
    have hx := congrArg Point.x h
    simp at hx

theorem unit_hexagon_regular (h : K) (hclose : |h ^ 2 - 3 / 4| < 1 / 10 ^ 9) :
    regular_ngon_spec (unit_hexagon h) := by
  have hc := abs_lt.1 hclose
  have hmean : mean_spec (unit_hexagon h) = ⟨0, 0⟩ := by
    simp only [mean_spec, unit_hexagon, vertex, Finset.sum_range_succ, Finset.sum_range_zero,
      List.length_cons, List.length_nil, List.getD_cons_zero, List.getD_cons_succ]
    congr 1 <;> ring
  refine ⟨by simp [unit_hexagon], ?_, ?_⟩
  · intro i hi
    rw [hmean]
    have hi6 : i < 6 := hi
    clear hi hmean
    rcases lt_six_cases hi6 with rfl | rfl | rfl | rfl | rfl | rfl <;>
      norm_num [sq_dist, vertex, unit_hexagon] <;>
      rw [abs_lt] <;> constructor <;> linarith only [hc.1, hc.2]
  · intro i hi
    have hi6 : i < 6 := hi
    clear hi hmean
    rcases lt_six_cases hi6 with rfl | rfl | rfl | rfl | rfl | rfl <;>
      norm_num [sq_dist, vertex, unit_hexagon] <;>
      rw [abs_lt] <;> constructor <;> linarith only [hc.1, hc.2]

theorem unit_hexagon_signed_area (h : K) : signed_area_spec (unit_hexagon h) = 3 * h := by
  norm_num [signed_area_spec, cross_term, vertex, unit_hexagon, Finset.sum_range_succ]
  ring

theorem unit_hexagon_center (h : K) (hpos : 0 < h) :
    (if |signed_area_spec (unit_hexagon h)| < 1 / 10 ^ 9 then mean_spec (unit_hexagon h)
      else weighted_spec (unit_hexagon h) (signed_area_spec (unit_hexagon h)))
      = ⟨0, 0⟩ := by
  have hne : signed_area_spec (unit_hexagon h) ≠ 0 := by
    rw [unit_hexagon_signed_area]
    exact ne_of_gt (by linarith)
  split
  · simp only [mean_spec, unit_hexagon, vertex, Finset.sum_range_succ, Finset.sum_range_zero,
      List.length_cons, List.length_nil, List.getD_cons_zero, List.getD_cons_succ]
    congr 1 <;> ring
  · unfold weighted_spec
    refine congrArg₂ Point.mk (weighted_quotient_eq _ _ _ hne ?_)
      (weighted_quotient_eq _ _ _ hne ?_)
    · norm_num [cross_term, vertex, unit_hexagon, Finset.sum_range_succ]
    · norm_num [cross_term, vertex, unit_hexagon, Finset.sum_range_succ]
      ring

theorem unit_hexagon_accepted (h : K) (hpos : 0 < h) (hclose : |h ^ 2 - 3 / 4| < 1 / 10 ^ 9) :
    ∃ f : Figure K,
      Hexagon.ctor ⟨1, 0⟩ ⟨1 / 2, h⟩ ⟨-1 / 2, h⟩ ⟨-1, 0⟩ ⟨-1 / 2, -h⟩ ⟨1 / 2, -h⟩ = .ok f
        ∧ f.operator_double = .ok (3 * h)
        ∧ f.find_center = .ok ⟨0, 0⟩ := by
  have hreg := unit_hexagon_regular h hclose
  have hc : ngon_ctor 6 "Error: Points do not form a regular hexagon" (unit_hexagon h) = _ :=
    ngon_ctor_eq "Error: Points do not form a regular hexagon" (unit_hexagon h)
  rw [if_pos hreg] at hc
  refine ⟨Figure.ofList (unit_hexagon h), hc, ?_, ?_⟩
  · rw [operator_double_ofList, unit_hexagon_signed_area, abs_of_pos (by linarith)]
  · rw [find_center_ofList_of_three_le (unit_hexagon h) (by simp [unit_hexagon]),
      unit_hexagon_center h hpos]

/-- C14, amended: in exact arithmetic, for every `h > 0` with `|h² - 3/4| < 1e-9`
the six points `(1,0), (1/2,h), (-1/2,h), (-1,0), (-1/2,-h), (1/2,-h)` are
accepted by the Hexagon constructor, the hexagon built has area exactly `3h`
and centre exactly `(0,0)`; for the `h = 0.86602540378` of the test suite the
area is `2.59807621134`, within `1e-9` of `3√3/2`. -/
theorem C14_unit_hexagon :
    (∀ h : K, 0 < h → |h ^ 2 - 3 / 4| < 1 / 10 ^ 9 →
      ∃ f : Figure K,
        Hexagon.ctor ⟨1, 0⟩ ⟨1 / 2, h⟩ ⟨-1 / 2, h⟩ ⟨-1, 0⟩ ⟨-1 / 2, -h⟩ ⟨1 / 2, -h⟩ = .ok f
          ∧ f.operator_double = .ok (3 * h)
          ∧ f.find_center = .ok ⟨0, 0⟩)
    ∧ (∃ f : Figure ℝ,
        Hexagon.ctor ⟨1, 0⟩ ⟨1 / 2, 86602540378 / 10 ^ 11⟩ ⟨-1 / 2, 86602540378 / 10 ^ 11⟩
            ⟨-1, 0⟩ ⟨-1 / 2, -(86602540378 / 10 ^ 11)⟩ ⟨1 / 2, -(86602540378 / 10 ^ 11)⟩
          = .ok f
          ∧ f.operator_double = .ok (259807621134 / 10 ^ 11)
          ∧ f.find_center = .ok ⟨0, 0⟩
          ∧ |(259807621134 / 10 ^ 11 : ℝ) - 3 * Real.sqrt 3 / 2| < 1 / 10 ^ 9) := by
  refine ⟨unit_hexagon_accepted, ?_⟩
  obtain ⟨f, hf, harea, hcen⟩ := unit_hexagon_accepted (86602540378 / 10 ^ 11 : ℝ)
    (by norm_num) (by rw [abs_lt]; constructor <;> norm_num)
  refine ⟨f, hf, ?_, hcen, ?_⟩
  · rw [harea]; norm_num
  · have hlo : (17320508075 / 10 ^ 10 : ℝ) < Real.sqrt 3 :=
      (Real.lt_sqrt (by norm_num)).2 (by norm_num)
    have hhi : Real.sqrt 3 < (17320508076 / 10 ^ 10 : ℝ) :=
      (Real.sqrt_lt' (by norm_num)).2 (by norm_num)
    rw [abs_lt]
    constructor <;> linarith

theorem lt_five_cases {i : ℕ} (hi : i < 5) : i = 0 ∨ i = 1 ∨ i = 2 ∨ i = 3 ∨ i = 4 := by
  omega

theorem pentagon_of_unit_vectors (r γ σ c0 s0 c1 s1 c2 s2 c3 s3 c4 s4 : K)
    (hσ : 0 < σ) (hr : 0 < r)
    (n0 : c0 ^ 2 + s0 ^ 2 = 1) (n1 : c1 ^ 2 + s1 ^ 2 = 1) (n2 : c2 ^ 2 + s2 ^ 2 = 1)
    (n3 : c3 ^ 2 + s3 ^ 2 = 1) (n4 : c4 ^ 2 + s4 ^ 2 = 1)
    (hc : c0 + c1 + c2 + c3 + c4 = 0) (hs : s0 + s1 + s2 + s3 + s4 = 0)
    (d0 : c0 * c1 + s0 * s1 = γ) (d1 : c1 * c2 + s1 * s2 = γ) (d2 : c2 * c3 + s2 * s3 = γ)
    (d3 : c3 * c4 + s3 * s4 = γ) (d4 : c4 * c0 + s4 * s0 = γ)
    (x0 : c0 * s1 - c1 * s0 = σ) (x1 : c1 * s2 - c2 * s1 = σ) (x2 : c2 * s3 - c3 * s2 = σ)
    (x3 : c3 * s4 - c4 * s3 = σ) (x4 : c4 * s0 - c0 * s4 = σ) :
    ∃ f : Figure K,
      Pentagon.ctor ⟨r * c0, r * s0⟩ ⟨r * c1, r * s1⟩ ⟨r * c2, r * s2⟩ ⟨r * c3, r * s3⟩
          ⟨r * c4, r * s4⟩ = .ok f
        ∧ f.operator_double = .ok (5 / 2 * r ^ 2 * σ)
        ∧ f.find_center = .ok ⟨0, 0⟩ := by
  have R0 : (r * c0) ^ 2 + (r * s0) ^ 2 = r ^ 2 := by linear_combination r ^ 2 * n0
  have R1 : (r * c1) ^ 2 + (r * s1) ^ 2 = r ^ 2 := by linear_combination r ^ 2 * n1
  have R2 : (r * c2) ^ 2 + (r * s2) ^ 2 = r ^ 2 := by linear_combination r ^ 2 * n2
  have R3 : (r * c3) ^ 2 + (r * s3) ^ 2 = r ^ 2 := by linear_combination r ^ 2 * n3
  have R4 : (r * c4) ^ 2 + (r * s4) ^ 2 = r ^ 2 := by linear_combination r ^ 2 * n4
  have E0 : (r * c0 - r * c1) ^ 2 + (r * s0 - r * s1) ^ 2 = r ^ 2 * (2 - 2 * γ) := by
    linear_combination r ^ 2 * n0 + r ^ 2 * n1 - 2 * r ^ 2 * d0
  have E1 : (r * c1 - r * c2) ^ 2 + (r * s1 - r * s2) ^ 2 = r ^ 2 * (2 - 2 * γ) := by
    linear_combination r ^ 2 * n1 + r ^ 2 * n2 - 2 * r ^ 2 * d1
  have E2 : (r * c2 - r * c3) ^ 2 + (r * s2 - r * s3) ^ 2 = r ^ 2 * (2 - 2 * γ) := by
    linear_combination r ^ 2 * n2 + r ^ 2 * n3 - 2 * r ^ 2 * d2
  have E3 : (r * c3 - r * c4) ^ 2 + (r * s3 - r * s4) ^ 2 = r ^ 2 * (2 - 2 * γ) := by
    linear_combination r ^ 2 * n3 + r ^ 2 * n4 - 2 * r ^ 2 * d3
  have E4 : (r * c4 - r * c0) ^ 2 + (r * s4 - r * s0) ^ 2 = r ^ 2 * (2 - 2 * γ) := by
    linear_combination r ^ 2 * n4 + r ^ 2 * n0 - 2 * r ^ 2 * d4
  have X0 : r * c0 * (r * s1) - r * c1 * (r * s0) = r ^ 2 * σ := by
    linear_combination r ^ 2 * x0
  have X1 : r * c1 * (r * s2) - r * c2 * (r * s1) = r ^ 2 * σ := by
    linear_combination r ^ 2 * x1
  have X2 : r * c2 * (r * s3) - r * c3 * (r * s2) = r ^ 2 * σ := by
    linear_combination r ^ 2 * x2
  have X3 : r * c3 * (r * s4) - r * c4 * (r * s3) = r ^ 2 * σ := by
    linear_combination r ^ 2 * x3
  have X4 : r * c4 * (r * s0) - r * c0 * (r * s4) = r ^ 2 * σ := by
    linear_combination r ^ 2 * x4
  have hmean : mean_spec ([⟨r * c0, r * s0⟩, ⟨r * c1, r * s1⟩, ⟨r * c2, r * s2⟩,
      ⟨r * c3, r * s3⟩, ⟨r * c4, r * s4⟩] : List (Point K)) = ⟨0, 0⟩ := by
    simp only [mean_spec, vertex, Finset.sum_range_succ, Finset.sum_range_zero,
      List.length_cons, List.length_nil, List.getD_cons_zero, List.getD_cons_succ]
    congr 1
    · push_cast
      linear_combination (r / 5) * hc
    · push_cast
      linear_combination (r / 5) * hs
  have hreg : regular_ngon_spec ([⟨r * c0, r * s0⟩, ⟨r * c1, r * s1⟩, ⟨r * c2, r * s2⟩,
      ⟨r * c3, r * s3⟩, ⟨r * c4, r * s4⟩] : List (Point K)) := by
    refine ⟨by simp, ?_, ?_⟩
    · intro i hi
      rw [hmean]
      have hi5 : i < 5 := hi
      clear hi hmean
      rcases lt_five_cases hi5 with rfl | rfl | rfl | rfl | rfl <;>
        norm_num [sq_dist, vertex] <;>
        rw [abs_lt] <;> constructor <;> linarith only [R0, R1, R2, R3, R4]
    · intro i hi
      have hi5 : i < 5 := hi
      clear hi hmean
      rcases lt_five_cases hi5 with rfl | rfl | rfl | rfl | rfl <;>
        norm_num [sq_dist, vertex] <;>
        rw [abs_lt] <;> constructor <;> linarith only [E0, E1, E2, E3, E4]
  have hS : signed_area_spec ([⟨r * c0, r * s0⟩, ⟨r * c1, r * s1⟩, ⟨r * c2, r * s2⟩,
      ⟨r * c3, r * s3⟩, ⟨r * c4, r * s4⟩] : List (Point K)) = 5 / 2 * r ^ 2 * σ := by
    norm_num [signed_area_spec, cross_term, vertex, Finset.sum_range_succ]
    linear_combination (1 / 2) * (X0 + X1 + X2 + X3 + X4)
  have hSpos : (0 : K) < 5 / 2 * r ^ 2 * σ := by positivity
  have hctor : ngon_ctor 5 "Error: Points do not form a regular pentagon"
      ([⟨r * c0, r * s0⟩, ⟨r * c1, r * s1⟩, ⟨r * c2, r * s2⟩,
        ⟨r * c3, r * s3⟩, ⟨r * c4, r * s4⟩] : List (Point K)) = _ :=
    ngon_ctor_eq "Error: Points do not form a regular pentagon" _
  rw [if_pos hreg] at hctor
  refine ⟨_, hctor, ?_, ?_⟩
  · rw [operator_double_ofList, hS, abs_of_pos hSpos]
  · rw [find_center_ofList_of_three_le _ (by simp)]
    split
    · rw [hmean]
    · unfold weighted_spec
      refine congrArg (Except.ok) (congrArg₂ Point.mk
        (weighted_quotient_eq _ _ _ (by rw [hS]; exact ne_of_gt hSpos) ?_)
        (weighted_quotient_eq _ _ _ (by rw [hS]; exact ne_of_gt hSpos) ?_))
      · norm_num [cross_term, vertex, Finset.sum_range_succ]
        linear_combination (r * c0 + r * c1) * X0 + (r * c1 + r * c2) * X1
          + (r * c2 + r * c3) * X2 + (r * c3 + r * c4) * X3 + (r * c4 + r * c0) * X4
          + 2 * r ^ 3 * σ * hc
      · norm_num [cross_term, vertex, Finset.sum_range_succ]
        linear_combination (r * s0 + r * s1) * X0 + (r * s1 + r * s2) * X1
          + (r * s2 + r * s3) * X2 + (r * s3 + r * s4) * X3 + (r * s4 + r * s0) * X4
          + 2 * r ^ 3 * σ * hs

theorem pentagon_angle_sums :
    Real.cos (2 * Real.pi * 0 / 5) + Real.cos (2 * Real.pi * 1 / 5)
        + Real.cos (2 * Real.pi * 2 / 5) + Real.cos (2 * Real.pi * 3 / 5)
        + Real.cos (2 * Real.pi * 4 / 5) = 0
    ∧ Real.sin (2 * Real.pi * 0 / 5) + Real.sin (2 * Real.pi * 1 / 5)
        + Real.sin (2 * Real.pi * 2 / 5) + Real.sin (2 * Real.pi * 3 / 5)
        + Real.sin (2 * Real.pi * 4 / 5) = 0 := by
  constructor
  · have h0 : Real.cos (2 * Real.pi * 0 / 5) = 1 := by simp
    have h1 : Real.cos (2 * Real.pi * 1 / 5) = 2 * Real.cos (Real.pi / 5) ^ 2 - 1 := by
      rw [← Real.cos_two_mul]; congr 1; ring
    have h2 : Real.cos (2 * Real.pi * 2 / 5) = - Real.cos (Real.pi / 5) := by
      rw [← Real.cos_pi_sub]; congr 1; ring
    have h3 : Real.cos (2 * Real.pi * 3 / 5) = - Real.cos (Real.pi / 5) := by
      rw [← Real.cos_add_pi]; congr 1; ring
    have h4 : Real.cos (2 * Real.pi * 4 / 5) = 2 * Real.cos (Real.pi / 5) ^ 2 - 1 := by
      rw [← Real.cos_two_mul, ← Real.cos_two_pi_sub]; congr 1; ring
    rw [h0, h1, h2, h3, h4]
    linear_combination Real.quadratic_root_cos_pi_div_five
  · have h0 : Real.sin (2 * Real.pi * 0 / 5) = 0 := by simp
    have h3 : Real.sin (2 * Real.pi * 3 / 5) = - Real.sin (2 * Real.pi * 2 / 5) := by
      rw [← Real.sin_two_pi_sub]; congr 1; ring
    have h4 : Real.sin (2 * Real.pi * 4 / 5) = - Real.sin (2 * Real.pi * 1 / 5) := by
      rw [← Real.sin_two_pi_sub]; congr 1; ring
    rw [h0, h3, h4]; ring

theorem pentagon_step_dot (j : ℝ) :
    Real.cos (2 * Real.pi * j / 5) * Real.cos (2 * Real.pi * (j + 1) / 5)
      + Real.sin (2 * Real.pi * j / 5) * Real.sin (2 * Real.pi * (j + 1) / 5)
      = Real.cos (2 * Real.pi / 5) := by
  rw [← Real.cos_sub, ← Real.cos_neg]; congr 1; ring

theorem pentagon_step_cross (j : ℝ) :
    Real.cos (2 * Real.pi * j / 5) * Real.sin (2 * Real.pi * (j + 1) / 5)
      - Real.cos (2 * Real.pi * (j + 1) / 5) * Real.sin (2 * Real.pi * j / 5)
      = Real.sin (2 * Real.pi / 5) := by
  have h := Real.sin_sub (2 * Real.pi * (j + 1) / 5) (2 * Real.pi * j / 5)
  have e : 2 * Real.pi * (j + 1) / 5 - 2 * Real.pi * j / 5 = 2 * Real.pi / 5 := by ring
  rw [e] at h
  linear_combination -h

theorem pentagon_closing_dot :
    Real.cos (2 * Real.pi * 4 / 5) * Real.cos (2 * Real.pi * 0 / 5)
      + Real.sin (2 * Real.pi * 4 / 5) * Real.sin (2 * Real.pi * 0 / 5)
      = Real.cos (2 * Real.pi / 5) := by
  rw [← Real.cos_sub, ← Real.cos_two_pi_sub]; congr 1; ring

theorem pentagon_closing_cross :
    Real.cos (2 * Real.pi * 4 / 5) * Real.sin (2 * Real.pi * 0 / 5)
      - Real.cos (2 * Real.pi * 0 / 5) * Real.sin (2 * Real.pi * 4 / 5)
      = Real.sin (2 * Real.pi / 5) := by
  have h := Real.sin_sub (2 * Real.pi * 0 / 5) (2 * Real.pi * 4 / 5)
  have e : 2 * Real.pi * 0 / 5 - 2 * Real.pi * 4 / 5 = 2 * Real.pi / 5 - 2 * Real.pi := by ring
  rw [e, Real.sin_sub_two_pi] at h
  linear_combination -h

/-- C15: for every circumradius `r > 0` the five points
`(r cos(2πk/5), r sin(2πk/5))`, `k = 0..4`, over the real numbers are accepted
by the Pentagon constructor, the pentagon built has area `(5/2) r² sin(2π/5)`,
and `find_center` returns `(0,0)`. -/
theorem C15_regular_pentagon (r : ℝ) (hr : 0 < r) :
    ∃ f : Figure ℝ,
      Pentagon.ctor
          ⟨r * Real.cos (2 * Real.pi * 0 / 5), r * Real.sin (2 * Real.pi * 0 / 5)⟩
          ⟨r * Real.cos (2 * Real.pi * 1 / 5), r * Real.sin (2 * Real.pi * 1 / 5)⟩
          ⟨r * Real.cos (2 * Real.pi * 2 / 5), r * Real.sin (2 * Real.pi * 2 / 5)⟩
          ⟨r * Real.cos (2 * Real.pi * 3 / 5), r * Real.sin (2 * Real.pi * 3 / 5)⟩
          ⟨r * Real.cos (2 * Real.pi * 4 / 5), r * Real.sin (2 * Real.pi * 4 / 5)⟩ = .ok f
        ∧ f.operator_double = .ok (5 / 2 * r ^ 2 * Real.sin (2 * Real.pi / 5))
        ∧ f.find_center = .ok ⟨0, 0⟩ := by
  have hσ : 0 < Real.sin (2 * Real.pi / 5) := by
    apply Real.sin_pos_of_pos_of_lt_pi
    · positivity
    · have := Real.pi_pos
      linarith
  have e1 : (1 : ℝ) = 0 + 1 := by norm_num
  have e2 : (2 : ℝ) = 1 + 1 := by norm_num
  have e3 : (3 : ℝ) = 2 + 1 := by norm_num
  have e4 : (4 : ℝ) = 3 + 1 := by norm_num
  have d0 := pentagon_step_dot 0
  have d1 := pentagon_step_dot 1
  have d2 := pentagon_step_dot 2
  have d3 := pentagon_step_dot 3
  have x0 := pentagon_step_cross 0
  have x1 := pentagon_step_cross 1
  have x2 := pentagon_step_cross 2
  have x3 := pentagon_step_cross 3
  rw [← e1] at d0 x0
  rw [← e2] at d1 x1
  rw [← e3] at d2 x2
  rw [← e4] at d3 x3
  exact pentagon_of_unit_vectors r (Real.cos (2 * Real.pi / 5)) (Real.sin (2 * Real.pi / 5))
    _ _ _ _ _ _ _ _ _ _ hσ hr
    (Real.cos_sq_add_sin_sq _) (Real.cos_sq_add_sin_sq _) (Real.cos_sq_add_sin_sq _)
    (Real.cos_sq_add_sin_sq _) (Real.cos_sq_add_sin_sq _)
    pentagon_angle_sums.1 pentagon_angle_sums.2
    d0 d1 d2 d3 pentagon_closing_dot x0 x1 x2 x3 pentagon_closing_cross

/-- C15 at the unit circumradius of the test suite, `r = 1`. -/
theorem C15_unit_pentagon_witness :
    (0 : ℝ) < 1
      ∧ ∃ f : Figure ℝ,
        Pentagon.ctor
            ⟨1 * Real.cos (2 * Real.pi * 0 / 5), 1 * Real.sin (2 * Real.pi * 0 / 5)⟩
            ⟨1 * Real.cos (2 * Real.pi * 1 / 5), 1 * Real.sin (2 * Real.pi * 1 / 5)⟩
            ⟨1 * Real.cos (2 * Real.pi * 2 / 5), 1 * Real.sin (2 * Real.pi * 2 / 5)⟩
            ⟨1 * Real.cos (2 * Real.pi * 3 / 5), 1 * Real.sin (2 * Real.pi * 3 / 5)⟩
            ⟨1 * Real.cos (2 * Real.pi * 4 / 5), 1 * Real.sin (2 * Real.pi * 4 / 5)⟩ = .ok f
          ∧ f.operator_double = .ok (5 / 2 * 1 ^ 2 * Real.sin (2 * Real.pi / 5))
          ∧ f.find_center = .ok ⟨0, 0⟩ :=
  ⟨one_pos, C15_regular_pentagon 1 one_pos⟩

/-- C19: `Rhombus<int>((0,0), (1,0), (2,0), (1,1))` is accepted, because the
truncated midpoints `(1,0)` and `(1,0)` agree, although the diagonals do not
bisect each other: `a.y + c.y = 0` and `b.y + d.y = 1`. -/
theorem C19_int_kite_accepted :
    check_rhombus_int ⟨0, 0⟩ ⟨1, 0⟩ ⟨2, 0⟩ ⟨1, 1⟩ = false
      ∧ Rhombus.ctor_int ⟨0, 0⟩ ⟨1, 0⟩ ⟨2, 0⟩ ⟨1, 1⟩
          = .ok ⟨some [⟨0, 0⟩, ⟨1, 0⟩, ⟨2, 0⟩, ⟨1, 1⟩], 4⟩
      ∧ (0 : Int) + 0 ≠ 0 + 1 := by
  have t1 : Int.tdiv (0 + 2) 2 = 1 := by decide
  have t2 : Int.tdiv (0 + 0) 2 = 0 := by decide
  have t3 : Int.tdiv (1 + 1) 2 = 1 := by decide
  have t4 : Int.tdiv (0 + 1) 2 = 0 := by decide
  have hc : check_rhombus_int ⟨0, 0⟩ ⟨1, 0⟩ ⟨2, 0⟩ ⟨1, 1⟩ = false := by
    simp only [check_rhombus_int, t1, t2, t3, t4]
    norm_num [eq_int, eq, EPSILON]
  refine ⟨hc, ?_, by decide⟩
  simp [Rhombus.ctor_int, hc, List.replicate]

set_option maxRecDepth 1000000 in
/-- C8, as stated for the `double` code, fails: the convex triangle
`(0,7), (1e17,3), (2,7)` has area `4`, and started at its second vertex
area `0`. -/
theorem C8_double_rotation_changes_area :
    all_doubles wide_triangle = true
      ∧ 3 ≤ wide_triangle.length
      ∧ (⟨some wide_triangle, 3⟩ : Figure Double).operator_double_double = some ⟨4, 1⟩
      ∧ wide_triangle.rotate 1
          = [⟨⟨100000000000000000, 1⟩, ⟨3, 1⟩⟩, ⟨⟨2, 1⟩, ⟨7, 1⟩⟩, ⟨⟨0, 1⟩, ⟨7, 1⟩⟩]
      ∧ (⟨some (wide_triangle.rotate 1), 3⟩ : Figure Double).operator_double_double
          = some ⟨0, 1⟩ := by
  decide

set_option maxRecDepth 1000000 in
/-- C9, as stated for the `double` code, fails: the triangle
`(-1,-1e16), (0,-1e16), (3e16,1e16)` has signed area `5e15`, and in reversed
order signed area `0`, so the area changes as well. -/
theorem C9_double_reversal_changes_area :
    all_doubles tall_triangle = true
      ∧ (⟨some tall_triangle, 3⟩ : Figure Double).find_signed_area_double
          = some ⟨5000000000000000, 1⟩
      ∧ (⟨some tall_triangle.reverse, 3⟩ : Figure Double).find_signed_area_double
          = some ⟨0, 1⟩
      ∧ (⟨some tall_triangle, 3⟩ : Figure Double).operator_double_double
          = some ⟨5000000000000000, 1⟩
      ∧ (⟨some tall_triangle.reverse, 3⟩ : Figure Double).operator_double_double
          = some ⟨0, 1⟩ := by
  decide

set_option maxRecDepth 1000000 in
/-- C11, as stated for the `double` code, fails: the points
`(1,2), (1e8,1e8+1), (99999999,1e8)` lie on the line `y = x + 1`, the signed
area computed is `-1`, `eq(-1, 0)` is false, and `find_center` returns the
area-weighted quotient `(33333333.33…, 33333333.33…)`, not the mean
`(66666666.66…, 66666667.66…)` that the other branch computes. -/
theorem C11_double_collinear_weighted_branch :
    all_doubles far_collinear = true
      ∧ (∀ p, p ∈ far_collinear → p.x.den = 1 ∧ p.y.den = 1 ∧ p.y.num = p.x.num + 1)
      ∧ (⟨some far_collinear, 3⟩ : Figure Double).find_signed_area_double = some ⟨-1, 1⟩
      ∧ eq_double ⟨-1, 1⟩ ⟨0, 1⟩ = false
      ∧ (⟨some far_collinear, 3⟩ : Figure Double).find_center_double
          = some ⟨⟨8947848533333333, 268435456⟩, ⟨8947848533333333, 268435456⟩⟩
      ∧ ((⟨some far_collinear, 3⟩ : Figure Double).total_loop_double 3).map
            (fun t => (t.1.div (Double.ofNat 3), t.2.div (Double.ofNat 3)))
          = some (⟨8947848533333333, 134217728⟩, ⟨8947848667551061, 134217728⟩) := by
  decide

set_option maxRecDepth 1000000 in
/-- C12, as stated for the `double` code, fails: the square `far_square` is
accepted by the constructor and its area is computed as `8`, while half the
absolute cross product of its diagonals is `10`. -/
theorem C12_double_area_not_half_cross :
    all_doubles far_square = true
      ∧ Rhombus.ctor_double ⟨⟨134217730, 1⟩, ⟨134217729, 1⟩⟩
          ⟨⟨134217727, 1⟩, ⟨134217730, 1⟩⟩ ⟨⟨134217726, 1⟩, ⟨134217727, 1⟩⟩
          ⟨⟨134217729, 1⟩, ⟨134217726, 1⟩⟩ = .ok ⟨some far_square, 4⟩
      ∧ (⟨some far_square, 4⟩ : Figure Double).operator_double_double = some ⟨8, 1⟩
      ∧ half_cross_double ⟨⟨134217730, 1⟩, ⟨134217729, 1⟩⟩
          ⟨⟨134217727, 1⟩, ⟨134217730, 1⟩⟩ ⟨⟨134217726, 1⟩, ⟨134217727, 1⟩⟩
          ⟨⟨134217729, 1⟩, ⟨134217726, 1⟩⟩ = ⟨10, 1⟩ := by
  have hc : check_rhombus_double ⟨⟨134217730, 1⟩, ⟨134217729, 1⟩⟩
      ⟨⟨134217727, 1⟩, ⟨134217730, 1⟩⟩ ⟨⟨134217726, 1⟩, ⟨134217727, 1⟩⟩
      ⟨⟨134217729, 1⟩, ⟨134217726, 1⟩⟩ = false := by decide
  refine ⟨by decide, ?_, by decide, by decide⟩
  simp [Rhombus.ctor_double, hc, far_square, List.replicate]

set_option maxRecDepth 1000000 in
/-- C13, as stated for the `double` code, fails: the square `far_square` has
`a + c = b + d` exactly and is accepted by the constructor, its diagonals meet
at `(134217728, 134217728)`, and `find_center` returns
`(145402538.66…, 145402538.33…)`. -/
theorem C13_double_center_not_midpoint :
    all_doubles far_square = true
      ∧ ((134217730 : Int) + 134217726 = 134217727 + 134217729
          ∧ (134217729 : Int) + 134217727 = 134217730 + 134217726)
      ∧ check_rhombus_double ⟨⟨134217730, 1⟩, ⟨134217729, 1⟩⟩
          ⟨⟨134217727, 1⟩, ⟨134217730, 1⟩⟩ ⟨⟨134217726, 1⟩, ⟨134217727, 1⟩⟩
          ⟨⟨134217729, 1⟩, ⟨134217726, 1⟩⟩ = false
      ∧ (Double.div (Double.add ⟨134217730, 1⟩ ⟨134217726, 1⟩) ⟨2, 1⟩ = ⟨134217728, 1⟩
          ∧ Double.div (Double.add ⟨134217729, 1⟩ ⟨134217727, 1⟩) ⟨2, 1⟩ = ⟨134217728, 1⟩)
      ∧ (⟨some far_square, 4⟩ : Figure Double).find_center_double
          = some ⟨⟨4878899596318037, 33554432⟩, ⟨4878899585133227, 33554432⟩⟩ := by
  decide

set_option maxRecDepth 1000000 in
/-- C14, as stated for the `double` code, fails at the `h = 0.86602540378` of
the test suite: `h > 0`, `|h² - 3/4| < 1e-9`, the hexagon is accepted, but
`find_center` returns `(0, 1.42…e-17)`, not `(0,0)`, and the area returned is
not `3h` but the `double` next to it. -/
theorem C14_double_hexagon_center_off :
    test_h = ⟨7800463371513983, 9007199254740992⟩
      ∧ all_doubles test_hexagon = true
      ∧ (0 : Int) < 7800463371513983
      ∧ ((0 : Int) ≤ 3 * 9007199254740992 ^ 2 - 4 * 7800463371513983 ^ 2
          ∧ (3 * 9007199254740992 ^ 2 - 4 * 7800463371513983 ^ 2) * 10 ^ 9
              < 4 * (9007199254740992 : Int) ^ 2)
      ∧ check_regular_ngon_double test_hexagon 6 = some true
      ∧ Hexagon.ctor_double ⟨⟨1, 1⟩, ⟨0, 1⟩⟩ ⟨⟨1, 2⟩, test_h⟩ ⟨⟨-1, 2⟩, test_h⟩
          ⟨⟨-1, 1⟩, ⟨0, 1⟩⟩ ⟨⟨-1, 2⟩, ⟨-test_h.num, test_h.den⟩⟩
          ⟨⟨1, 2⟩, ⟨-test_h.num, test_h.den⟩⟩ = some (.ok ⟨some test_hexagon, 6⟩)
      ∧ (⟨some test_hexagon, 6⟩ : Figure Double).find_center_double
          = some ⟨⟨0, 1⟩, ⟨2311248406398205, 162259276829213363391578010288128⟩⟩
      ∧ (⟨some test_hexagon, 6⟩ : Figure Double).operator_double_double
          = some ⟨5850347528635487, 2251799813685248⟩
      ∧ (5850347528635487 : Int) * 9007199254740992
          ≠ 3 * 7800463371513983 * 2251799813685248 := by
  have hreg : check_regular_ngon_double test_hexagon 6 = some true := by decide
  have hctor : Hexagon.ctor_double ⟨⟨1, 1⟩, ⟨0, 1⟩⟩ ⟨⟨1, 2⟩, test_h⟩ ⟨⟨-1, 2⟩, test_h⟩
      ⟨⟨-1, 1⟩, ⟨0, 1⟩⟩ ⟨⟨-1, 2⟩, ⟨-test_h.num, test_h.den⟩⟩
      ⟨⟨1, 2⟩, ⟨-test_h.num, test_h.den⟩⟩ = some (.ok ⟨some test_hexagon, 6⟩) := by
    have hreg2 : check_regular_ngon_double
        [⟨⟨1, 1⟩, ⟨0, 1⟩⟩, ⟨⟨1, 2⟩, test_h⟩, ⟨⟨-1, 2⟩, test_h⟩, ⟨⟨-1, 1⟩, ⟨0, 1⟩⟩,
          ⟨⟨-1, 2⟩, ⟨-test_h.num, test_h.den⟩⟩, ⟨⟨1, 2⟩, ⟨-test_h.num, test_h.den⟩⟩] 6
        = some true := hreg
    simp only [Hexagon.ctor_double, hreg2, test_hexagon]
    rfl
  exact ⟨by decide, by decide, by decide, by decide, hreg, hctor, by decide, by decide,
    by decide⟩

set_option maxRecDepth 1000000 in
/-- C16, as stated for the `double` code, fails: the rhombus
`(2^27,0), (2^26,1), (0,0), (2^26,-1)` is accepted, and so are the four points
with the third vertex replaced by `(5e-9, 0)`, which differs from it by more
than `4e-9` in `x`. -/
theorem C16_double_moved_vertex_accepted :
    round64 5 (10 ^ 9) = ⟨3022314549036573, 604462909807314587353088⟩
      ∧ (4 : Int) * 604462909807314587353088 ≤ 3022314549036573 * 10 ^ 9
      ∧ Rhombus.ctor_double ⟨⟨134217728, 1⟩, ⟨0, 1⟩⟩ ⟨⟨67108864, 1⟩, ⟨1, 1⟩⟩ ⟨⟨0, 1⟩, ⟨0, 1⟩⟩
          ⟨⟨67108864, 1⟩, ⟨-1, 1⟩⟩
          = .ok ⟨some [⟨⟨134217728, 1⟩, ⟨0, 1⟩⟩, ⟨⟨67108864, 1⟩, ⟨1, 1⟩⟩, ⟨⟨0, 1⟩, ⟨0, 1⟩⟩,
              ⟨⟨67108864, 1⟩, ⟨-1, 1⟩⟩], 4⟩
      ∧ Rhombus.ctor_double ⟨⟨134217728, 1⟩, ⟨0, 1⟩⟩ ⟨⟨67108864, 1⟩, ⟨1, 1⟩⟩
          ⟨⟨3022314549036573, 604462909807314587353088⟩, ⟨0, 1⟩⟩ ⟨⟨67108864, 1⟩, ⟨-1, 1⟩⟩
          = .ok ⟨some [⟨⟨134217728, 1⟩, ⟨0, 1⟩⟩, ⟨⟨67108864, 1⟩, ⟨1, 1⟩⟩,
              ⟨⟨3022314549036573, 604462909807314587353088⟩, ⟨0, 1⟩⟩,
              ⟨⟨67108864, 1⟩, ⟨-1, 1⟩⟩], 4⟩ := by
  have h1 : check_rhombus_double ⟨⟨134217728, 1⟩, ⟨0, 1⟩⟩ ⟨⟨67108864, 1⟩, ⟨1, 1⟩⟩
      ⟨⟨0, 1⟩, ⟨0, 1⟩⟩ ⟨⟨67108864, 1⟩, ⟨-1, 1⟩⟩ = false := by decide
  have h2 : check_rhombus_double ⟨⟨134217728, 1⟩, ⟨0, 1⟩⟩ ⟨⟨67108864, 1⟩, ⟨1, 1⟩⟩
      ⟨⟨3022314549036573, 604462909807314587353088⟩, ⟨0, 1⟩⟩ ⟨⟨67108864, 1⟩, ⟨-1, 1⟩⟩
      = false := by decide
  refine ⟨by decide, by decide, ?_, ?_⟩
  · simp [Rhombus.ctor_double, h1, List.replicate]
  · simp [Rhombus.ctor_double, h2, List.replicate]

end Lab4
